import Mathlib

/-!
# Google Cloud DNS provider for the ACME DNS-01 challenge

A shallow embedding of `providers/dns/googlecloud/googlecloud.go`.

Every call that leaves the package (the `acme` helpers, the Google client
libraries, the Cloud DNS API, `os.Getenv`, `time.Sleep`) is a field of a
record of operations over an abstract outside-world state `σ`.  The provider
methods are written in state-passing style over `World σ`, which pairs the
outside-world state with the chronological log of the calls made so far, so
that both the results and the sequence of API calls can be stated.

A Go `error` is modelled by its message.  A function returning `(T, error)`
returns `Except Error T`; a function returning only `error` returns
`Except Error Unit`.
-/

namespace GoogleCloud

/-! ## Data model -/

/-- A Go `error`, identified with the message it carries. -/
abbrev Error := String

/-- The Go type `dns.ResourceRecordSet`, with the fields the package uses. -/
structure ResourceRecordSet where
  Name : String
  Rrdatas : List String
  Ttl : Int
  Type_ : String
deriving DecidableEq, Repr

/-- The Go type `dns.Change`, with the fields the package uses.  A `nil`
slice and an empty slice are both the empty list. -/
structure Change where
  Additions : List ResourceRecordSet
  Deletions : List ResourceRecordSet
  Id : String
  Status : String
deriving DecidableEq, Repr

/-- The Go type `dns.ManagedZone`, with the fields the package uses. -/
structure ManagedZone where
  Name : String
  DnsName : String
deriving DecidableEq, Repr

/-- The Go struct `DNSProvider`; `ς` is the type of the DNS client handle. -/
structure DNSProvider (ς : Type) where
  project : String
  client : ς

/-! ## Durations (package `time`) -/

/-- The constant `time.Nanosecond`: a `time.Duration` counts nanoseconds. -/
def Nanosecond : Int := 1
/-- The constant `time.Microsecond`. -/
def Microsecond : Int := 1000 * Nanosecond
/-- The constant `time.Millisecond`. -/
def Millisecond : Int := 1000 * Microsecond
/-- The constant `time.Second`. -/
def Second : Int := 1000 * Millisecond

/-! ## Calls that leave the package -/

/-- One call made by the package to the outside, with its arguments. -/
inductive Call where
  | Getenv (key : String)
  | DefaultClient (scope : String)
  | JWTConfigFromJSON (jsonKey : List Nat) (scope : String)
  | ConfClient
  | DnsNew
  | FindZoneByFqdn (fqdn : String) (nameservers : List String)
  | ManagedZonesList (project dnsName : String)
  | ResourceRecordSetsList (project zone : String) (name type : Option String)
  | ChangesCreate (project zone : String) (change : Change)
  | ChangesGet (project zone changeId : String)
  | Sleep (d : Int)
deriving DecidableEq, Repr

/-- The outside-world state together with the log of calls made so far,
oldest first. -/
structure World (σ : Type) where
  st : σ
  log : List Call

/-- Perform an outside call `f` on the world: the call is appended to the
log and the outside state is replaced by the one the call leaves. -/
def perform {σ α : Type} (call : Call) (f : σ → Except Error α × σ) (w : World σ) :
    Except Error α × World σ :=
  ((f w.st).1, { st := (f w.st).2, log := w.log ++ [call] })

/-- The call `time.Sleep(d)`: it only passes time, which the log records. -/
def Sleep {σ : Type} (d : Int) (w : World σ) : World σ :=
  { st := w.st, log := w.log ++ [Call.Sleep d] }

/-- The operations of a `*dns.Service` handle that the package calls.  Each
takes the outside state and returns a result and the state it leaves. The
optional `name` and `type` are the `.Name(..)` and `.Type(..)` filters of
the list call. -/
structure Service (σ : Type) where
  ManagedZonesList : (project dnsName : String) → σ → Except Error (List ManagedZone) × σ
  ResourceRecordSetsList : (project zone : String) → (name type : Option String) → σ →
    Except Error (List ResourceRecordSet) × σ
  ChangesCreate : (project zone : String) → Change → σ → Except Error Change × σ
  ChangesGet : (project zone changeId : String) → σ → Except Error Change × σ

/-- The parts of package `acme` the provider uses, other than `DNS01Record`:
`ToFqdn`, the variable `RecursiveNameservers`, the lookup `FindZoneByFqdn`,
and the two ingredients of the challenge record that the spec leaves to the
library: the digest of the key authorization and the fixed TTL. -/
structure Acme (σ : Type) where
  ToFqdn : String → String
  RecursiveNameservers : List String
  FindZoneByFqdn : (fqdn : String) → (nameservers : List String) → σ → Except Error String × σ
  keyAuthDigest : String → String
  challengeTTL : Int

/-- Modelled from the spec: `acme.DNS01Record` is not part of the sources.
The spec gives the FQDN as `_acme-challenge.<domain>.`, the value as a
digest of the key authorization and the TTL as a fixed duration; the digest
and the TTL are taken from the `Acme` record. -/
def DNS01Record {σ : Type} (acme : Acme σ) (domain keyAuth : String) : String × String × Int :=
  ("_acme-challenge." ++ domain ++ ".", acme.keyAuthDigest keyAuth, acme.challengeTTL)

/-- The parts of `os`, `golang.org/x/oauth2/google` and `dns` that the
constructors call.  `κ` is `*http.Client`, `γ` is `*jwt.Config`, `ς` is
`*dns.Service`. -/
structure Google (σ κ γ ς : Type) where
  LookupEnv : String → σ → Option String
  NdevClouddnsReadwriteScope : String
  DefaultClient : (scope : String) → σ → Except Error κ × σ
  JWTConfigFromJSON : (jsonKey : List Nat) → (scope : String) → σ → Except Error γ × σ
  ConfClient : γ → κ
  DnsNew : κ → σ → Except Error ς × σ

/-- The call `os.Getenv(key)`: the value of the variable, and the empty
string when the variable is not present. -/
def Getenv {σ κ γ ς : Type} (g : Google σ κ γ ς) (key : String) (w : World σ) :
    String × World σ :=
  ((g.LookupEnv key w.st).getD "", { st := w.st, log := w.log ++ [Call.Getenv key] })

/-! ## The provider -/

/-- The function `NewDNSProviderCredentials`.  A `nil` key is `none`. -/
def NewDNSProviderCredentials {σ κ γ ς : Type} (g : Google σ κ γ ς)
    (project : String) (jsonKey : Option (List Nat)) (w : World σ) :
    Except Error (DNSProvider ς) × World σ :=
  if project = "" then
    (.error "Google Cloud project name missing", w)
  else
    let r : Except Error κ × World σ :=
      match jsonKey with
      | none =>
        match perform (Call.DefaultClient g.NdevClouddnsReadwriteScope)
            (g.DefaultClient g.NdevClouddnsReadwriteScope) w with
        | (.error err, w1) => (.error ("Unable to get Google Cloud client: " ++ err), w1)
        | (.ok client, w1) => (.ok client, w1)
      | some key =>
        match perform (Call.JWTConfigFromJSON key g.NdevClouddnsReadwriteScope)
            (g.JWTConfigFromJSON key g.NdevClouddnsReadwriteScope) w with
        | (.error err, w1) =>
          (.error ("Unable to load JWT config from Google Service Account file: " ++ err), w1)
        | (.ok conf, w1) =>
          (.ok (g.ConfClient conf), { st := w1.st, log := w1.log ++ [Call.ConfClient] })
    match r with
    | (.error e, w1) => (.error e, w1)
    | (.ok client, w1) =>
      match perform Call.DnsNew (g.DnsNew client) w1 with
      | (.error err, w2) => (.error ("Unable to create Google Cloud DNS service: " ++ err), w2)
      | (.ok svc, w2) => (.ok { project := project, client := svc }, w2)

/-- The function `NewDNSProvider`. -/
def NewDNSProvider {σ κ γ ς : Type} (g : Google σ κ γ ς) (w : World σ) :
    Except Error (DNSProvider ς) × World σ :=
  let (project, w1) := Getenv g "GCE_PROJECT" w
  NewDNSProviderCredentials g project none w1

/-- The method `getHostedZone`. -/
def getHostedZone {σ : Type} (acme : Acme σ) (c : DNSProvider (Service σ)) (domain : String)
    (w : World σ) : Except Error String × World σ :=
  match perform (Call.FindZoneByFqdn (acme.ToFqdn domain) acme.RecursiveNameservers)
      (acme.FindZoneByFqdn (acme.ToFqdn domain) acme.RecursiveNameservers) w with
  | (.error err, w1) => (.error err, w1)
  | (.ok authZone, w1) =>
    match perform (Call.ManagedZonesList c.project authZone)
        (c.client.ManagedZonesList c.project authZone) w1 with
    | (.error err, w2) => (.error ("GoogleCloud API call failed: " ++ err), w2)
    | (.ok zones, w2) =>
      match zones with
      | [] => (.error ("No matching GoogleCloud domain found for domain " ++ authZone), w2)
      | z :: _ => (.ok z.Name, w2)

/-- The method `findTxtRecords`. -/
def findTxtRecords {σ : Type} (c : DNSProvider (Service σ)) (zone fqdn : String)
    (w : World σ) : Except Error (List ResourceRecordSet) × World σ :=
  match perform (Call.ResourceRecordSetsList c.project zone none none)
      (c.client.ResourceRecordSetsList c.project zone none none) w with
  | (.error err, w1) => (.error err, w1)
  | (.ok recs, w1) => (.ok (recs.filter (fun r => r.Type_ = "TXT" ∧ r.Name = fqdn)), w1)

/-- The loop `for chg.Status == "pending" { ... }` of `Present`, run for at
most `fuel` iterations.  The result is `none` when the fuel runs out while
the status is still pending, and otherwise the error of the failed fetch or
the value of `chg` on leaving the loop. -/
def pollLoop {σ : Type} (c : DNSProvider (Service σ)) (zone : String) :
    Nat → Change → World σ → Option (Except Error Change) × World σ
  | 0, chg, w => if chg.Status = "pending" then (none, w) else (some (.ok chg), w)
  | fuel + 1, chg, w =>
    if chg.Status = "pending" then
      match perform (Call.ChangesGet c.project zone chg.Id)
          (c.client.ChangesGet c.project zone chg.Id) (Sleep Second w) with
      | (.error err, w1) => (some (.error err), w1)
      | (.ok chg1, w1) => pollLoop c zone fuel chg1 w1
    else (some (.ok chg), w)

/-- The method `Present`; `fuel` bounds the iterations of its polling loop,
and the result is `none` when that bound is reached. -/
def Present {σ : Type} (acme : Acme σ) (c : DNSProvider (Service σ))
    (domain _token keyAuth : String) (fuel : Nat) (w : World σ) :
    Option (Except Error Unit) × World σ :=
  let (fqdn, value, ttl) := DNS01Record acme domain keyAuth
  match getHostedZone acme c domain w with
  | (.error err, w1) => (some (.error err), w1)
  | (.ok zone, w1) =>
    let rec_ : ResourceRecordSet := { Name := fqdn, Rrdatas := [value], Ttl := ttl, Type_ := "TXT" }
    let change : Change := { Additions := [rec_], Deletions := [], Id := "", Status := "" }
    match perform (Call.ResourceRecordSetsList c.project zone (some fqdn) (some "TXT"))
        (c.client.ResourceRecordSetsList c.project zone (some fqdn) (some "TXT")) w1 with
    | (.error err, w2) => (some (.error err), w2)
    | (.ok rrsets, w2) =>
      let change : Change := if rrsets.length > 0 then { change with Deletions := rrsets } else change
      match perform (Call.ChangesCreate c.project zone change)
          (c.client.ChangesCreate c.project zone change) w2 with
      | (.error err, w3) => (some (.error err), w3)
      | (.ok chg, w3) =>
        match pollLoop c zone fuel chg w3 with
        | (none, w4) => (none, w4)
        | (some (.error err), w4) => (some (.error err), w4)
        | (some (.ok _), w4) => (some (.ok ()), w4)

/-- The loop `for _, rec := range records { ... }` of `CleanUp`. -/
def deleteEach {σ : Type} (c : DNSProvider (Service σ)) (zone : String) :
    List ResourceRecordSet → World σ → Except Error Unit × World σ
  | [], w => (.ok (), w)
  | r :: rest, w =>
    let change : Change := { Additions := [], Deletions := [r], Id := "", Status := "" }
    match perform (Call.ChangesCreate c.project zone change)
        (c.client.ChangesCreate c.project zone change) w with
    | (.error err, w1) => (.error err, w1)
    | (.ok _, w1) => deleteEach c zone rest w1

/-- The method `CleanUp`. -/
def CleanUp {σ : Type} (acme : Acme σ) (c : DNSProvider (Service σ))
    (domain _token keyAuth : String) (w : World σ) : Except Error Unit × World σ :=
  let (fqdn, _, _) := DNS01Record acme domain keyAuth
  match getHostedZone acme c domain w with
  | (.error err, w1) => (.error err, w1)
  | (.ok zone, w1) =>
    match findTxtRecords c zone fqdn w1 with
    | (.error err, w2) => (.error err, w2)
    | (.ok records, w2) => deleteEach c zone records w2

/-- The method `Timeout`. -/
def Timeout {ς : Type} (_c : DNSProvider ς) : Int × Int :=
  (180 * Second, 5 * Second)

/-! ## A model of the outside world

A concrete outside world against which the provider can be run.  The public
DNS is a table from names to the result of the authoritative-zone lookup.
The Cloud DNS service keeps, per project, the managed zones for each DNS
name and, per project and managed zone, the list of stored record sets.  A
submitted change first removes its deletions from the zone and then adds
its additions; list calls return the stored content in one page.  Whether a
change submission or a status fetch fails, and the status it reports, is
read from a script, one entry per such call; when the script is used up the
call succeeds with status `done`. -/

/-- The state of the modelled outside world. -/
structure Cloud where
  apex : String → Except Error String
  zones : String → String → List ManagedZone
  store : String → String → List ResourceRecordSet
  script : List (Except Error String)
  nextId : Nat

/-- The effect of a change on the content of a zone: the record sets listed
in `Deletions` are removed, then those in `Additions` are added. -/
def applyChange (change : Change) (content : List ResourceRecordSet) : List ResourceRecordSet :=
  content.filter (fun r => r ∉ change.Deletions) ++ change.Additions

/-- The store after `change` has been applied to `zone` of `project`. -/
def Cloud.submit (s : Cloud) (project zone : String) (change : Change) :
    String → String → List ResourceRecordSet :=
  fun p z => if p = project ∧ z = zone then applyChange change (s.store p z) else s.store p z

/-- The record sets of a zone content that pass the optional name and type
filters of a list call. -/
def listFilter (name type : Option String) (content : List ResourceRecordSet) :
    List ResourceRecordSet :=
  content.filter (fun r => (name = none ∨ name = some r.Name) ∧ (type = none ∨ type = some r.Type_))

/-- The modelled Cloud DNS service. -/
def cloudService : Service Cloud where
  ManagedZonesList := fun project dnsName s => (.ok (s.zones project dnsName), s)
  ResourceRecordSetsList := fun project zone name type s =>
    (.ok (listFilter name type (s.store project zone)), s)
  ChangesCreate := fun project zone change s =>
    match s.script with
    | [] =>
      (.ok { change with Id := toString s.nextId, Status := "done" },
        { s with store := s.submit project zone change, nextId := s.nextId + 1 })
    | .error e :: rest => (.error e, { s with script := rest })
    | .ok status :: rest =>
      (.ok { change with Id := toString s.nextId, Status := status },
        { s with store := s.submit project zone change, nextId := s.nextId + 1, script := rest })
  ChangesGet := fun _project _zone changeId s =>
    match s.script with
    | [] => (.ok { Additions := [], Deletions := [], Id := changeId, Status := "done" }, s)
    | .error e :: rest => (.error e, { s with script := rest })
    | .ok status :: rest =>
      (.ok { Additions := [], Deletions := [], Id := changeId, Status := status },
        { s with script := rest })

/-- Modelled from the spec: `acme.ToFqdn` is not part of the sources.  The
glossary of the spec describes a fully-qualified name as terminated by a
trailing dot; the model adds the dot to a non-empty name that lacks one. -/
def ToFqdn (name : String) : String :=
  if name = "" ∨ name.back = '.' then name else name ++ "."

/-- The `acme` package over the modelled world: the authoritative-zone
lookup reads the public DNS table, whatever the name servers given; the
digest and the TTL are parameters. -/
def cloudAcme (digest : String → String) (ttl : Int) : Acme Cloud where
  ToFqdn := ToFqdn
  RecursiveNameservers := ["google-public-dns-a.google.com:53", "google-public-dns-b.google.com:53"]
  FindZoneByFqdn := fun fqdn _nameservers s => (s.apex fqdn, s)
  keyAuthDigest := digest
  challengeTTL := ttl

/-- A provider for `project` whose client is the modelled service. -/
def cloudProvider (project : String) : DNSProvider (Service Cloud) :=
  { project := project, client := cloudService }

/-- The world of the spec's example, with the managed zones that the service
lists for `example.com.` left open: the apex of `example.com` is
`example.com.`, project `p` lists the managed zones `Z` for it, the managed
zone `example-zone` holds the record sets `content`, and `script` is the
script of the change calls. -/
def exampleCloudWith (Z : List ManagedZone) (content : List ResourceRecordSet)
    (script : List (Except Error String)) : World Cloud :=
  { st :=
      { apex := fun fqdn =>
          if fqdn = "example.com." then .ok "example.com." else .error "no zone apex found"
        zones := fun project dnsName => if project = "p" ∧ dnsName = "example.com." then Z else []
        store := fun project zone => if project = "p" ∧ zone = "example-zone" then content else []
        script := script
        nextId := 0 }
    log := [] }

/-- The example of the spec: `example.com.` is served by the one managed
zone `example-zone`. -/
def exampleCloud (content : List ResourceRecordSet) (script : List (Except Error String)) :
    World Cloud :=
  exampleCloudWith [{ Name := "example-zone", DnsName := "example.com." }] content script

/-! ## Projections of the call log -/

/-- The change submissions in a log, in order: project, zone and change. -/
def creates (log : List Call) : List (String × String × Change) :=
  log.filterMap (fun call =>
    match call with
    | Call.ChangesCreate project zone change => some (project, zone, change)
    | _ => none)

/-- The status fetches in a log, in order: project, zone and change id. -/
def fetches (log : List Call) : List (String × String × String) :=
  log.filterMap (fun call =>
    match call with
    | Call.ChangesGet project zone changeId => some (project, zone, changeId)
    | _ => none)

/-- The durations of the sleeps in a log, in order. -/
def sleeps (log : List Call) : List Int :=
  log.filterMap (fun call =>
    match call with
    | Call.Sleep d => some d
    | _ => none)

/-! ## Changes named in the statements, and example worlds -/

/-- The change that `Present` submits when the filtered listing returns
`rrsets`. -/
def challengeChange {σ : Type} (acme : Acme σ) (domain keyAuth : String)
    (rrsets : List ResourceRecordSet) : Change :=
  { Additions :=
      [{ Name := (DNS01Record acme domain keyAuth).1
         Rrdatas := [(DNS01Record acme domain keyAuth).2.1]
         Ttl := (DNS01Record acme domain keyAuth).2.2
         Type_ := "TXT" }]
    Deletions := rrsets
    Id := ""
    Status := "" }

/-- The change that deletes the record sets `records` and adds nothing. -/
def deletionOf (records : List ResourceRecordSet) : Change :=
  { Additions := [], Deletions := records, Id := "", Status := "" }

/-- A string is blank when it has no character other than white space; the
empty string is blank. -/
def blank (s : String) : Bool :=
  s.data.all Char.isWhitespace

/-- A `Google` record over the trivial outside state whose environment is
`env`, whose default credentials and key parsing succeed, returning the
scope and the key as the client and the configuration, and whose service
handle is the client. -/
def exampleGoogle (env : String → Option String) : Google Unit String (List Nat) String where
  LookupEnv := fun key _ => env key
  NdevClouddnsReadwriteScope := "https://www.googleapis.com/auth/ndev.clouddns.readwrite"
  DefaultClient := fun scope s => (.ok ("default:" ++ scope), s)
  JWTConfigFromJSON := fun jsonKey _ s =>
    if jsonKey = [] then (.error "unexpected end of JSON input", s) else (.ok jsonKey, s)
  ConfClient := fun _ => "jwt"
  DnsNew := fun client s => (.ok ("dns:" ++ client), s)

/-- The zone content used in the examples of `CleanUp`: three TXT record
sets at the challenge name of `example.com`, with an A record set between
the first and the second. -/
def exampleContent : List ResourceRecordSet :=
  [{ Name := "_acme-challenge.example.com.", Rrdatas := ["a"], Ttl := 120, Type_ := "TXT" },
   { Name := "example.com.", Rrdatas := ["192.0.2.1"], Ttl := 300, Type_ := "A" },
   { Name := "_acme-challenge.example.com.", Rrdatas := ["b"], Ttl := 120, Type_ := "TXT" },
   { Name := "_acme-challenge.example.com.", Rrdatas := ["c"], Ttl := 120, Type_ := "TXT" }]

/-! ## Basic facts about calls and logs -/

theorem perform_eq {σ α : Type} {call : Call} {f : σ → Except Error α × σ} {w w1 : World σ}
    {r : Except Error α} (h : perform call f w = (r, w1)) :
    r = (f w.st).1 ∧ w1 = { st := (f w.st).2, log := w.log ++ [call] } := by
  simp only [perform, Prod.mk.injEq] at h
  exact ⟨h.1.symm, h.2.symm⟩

@[simp] theorem creates_append (l1 l2 : List Call) :
    creates (l1 ++ l2) = creates l1 ++ creates l2 := by
  simp [creates]

@[simp] theorem fetches_append (l1 l2 : List Call) :
    fetches (l1 ++ l2) = fetches l1 ++ fetches l2 := by
  simp [fetches]

@[simp] theorem sleeps_append (l1 l2 : List Call) :
    sleeps (l1 ++ l2) = sleeps l1 ++ sleeps l2 := by
  simp [sleeps]

/-- The zone resolution `getHostedZone` submits no change, fetches no
status and does not sleep. -/
theorem getHostedZone_log {σ : Type} (acme : Acme σ) (c : DNSProvider (Service σ))
    (domain : String) (w : World σ) :
    creates (getHostedZone acme c domain w).2.log = creates w.log ∧
      fetches (getHostedZone acme c domain w).2.log = fetches w.log ∧
      sleeps (getHostedZone acme c domain w).2.log = sleeps w.log := by
  unfold getHostedZone
  split
  · rename_i err w1 h
    obtain ⟨-, rfl⟩ := perform_eq h
    simp [creates, fetches, sleeps]
  · rename_i authZone w1 h
    obtain ⟨-, rfl⟩ := perform_eq h
    split
    · rename_i err w2 h2
      obtain ⟨-, rfl⟩ := perform_eq h2
      simp [creates, fetches, sleeps]
    · rename_i zones w2 h2
      obtain ⟨-, rfl⟩ := perform_eq h2
      split <;> simp [creates, fetches, sleeps]

/-- The polling loop submits no change. -/
theorem pollLoop_creates {σ : Type} (c : DNSProvider (Service σ)) (zone : String)
    (fuel : Nat) (chg : Change) (w : World σ) :
    creates (pollLoop c zone fuel chg w).2.log = creates w.log := by
  induction fuel generalizing chg w with
  | zero =>
    unfold pollLoop
    split <;> rfl
  | succ n ih =>
    unfold pollLoop
    split
    · split
      · rename_i err w1 h
        obtain ⟨-, rfl⟩ := perform_eq h
        simp [Sleep, creates]
      · rename_i chg1 w1 h
        obtain ⟨-, rfl⟩ := perform_eq h
        rw [ih]
        simp [Sleep, creates]
    · rfl

/-! ## Present: the submitted change -/

/-- C3. When zone resolution gives `zone` and the listing filtered by the
challenge name and type TXT gives `rrsets`, `Present` submits exactly one
change, to `zone`: its additions are the single TXT record set with the
derived name, value and TTL, and its deletions are `rrsets`.  This holds
whatever the service answers to the submission and to the status fetches,
and for every bound on the polling loop. -/
theorem Present_submits_one_change {σ : Type} (acme : Acme σ) (c : DNSProvider (Service σ))
    (domain token keyAuth : String) (fuel : Nat) (w : World σ)
    (zone : String) (rrsets : List ResourceRecordSet)
    (hzone : (getHostedZone acme c domain w).1 = .ok zone)
    (hlist : (c.client.ResourceRecordSetsList c.project zone
        (some (DNS01Record acme domain keyAuth).1) (some "TXT")
        (getHostedZone acme c domain w).2.st).1 = .ok rrsets) :
    creates (Present acme c domain token keyAuth fuel w).2.log =
      creates w.log ++
        [(c.project, zone,
          { Additions :=
              [{ Name := (DNS01Record acme domain keyAuth).1
                 Type_ := "TXT"
                 Rrdatas := [(DNS01Record acme domain keyAuth).2.1]
                 Ttl := (DNS01Record acme domain keyAuth).2.2 }]
            Deletions := rrsets
            Id := ""
            Status := "" })] := by
  have hlog := (getHostedZone_log acme c domain w).1
  rcases hgz : getHostedZone acme c domain w with ⟨r, w1⟩
  rw [hgz] at hzone hlist hlog
  simp only at hzone hlist hlog
  subst hzone
  have hdel : rrsets.length > 0 ∨ rrsets = [] := by
    cases rrsets <;> simp
  unfold Present
  simp only [hgz]
  split
  · rename_i err w2 h2
    obtain ⟨h2a, -⟩ := perform_eq h2
    rw [hlist] at h2a
    cases h2a
  · rename_i found w2 h2
    obtain ⟨h2a, rfl⟩ := perform_eq h2
    rw [hlist] at h2a
    cases h2a
    rcases hdel with hlen | rfl
    · simp only [hlen, if_true]
      split
      · rename_i err w3 h3
        obtain ⟨-, rfl⟩ := perform_eq h3
        simp only [creates_append, hlog]
        simp [creates]
      · rename_i chg w3 h3
        obtain ⟨-, rfl⟩ := perform_eq h3
        split <;>
        · rename_i h4
          have hp := congrArg (fun x => creates x.2.log) h4
          simp only [pollLoop_creates] at hp
          rw [← hp]
          simp only [creates_append, hlog]
          simp [creates]
    · simp only [List.length_nil, gt_iff_lt, lt_self_iff_false, if_false]
      split
      · rename_i err w3 h3
        obtain ⟨-, rfl⟩ := perform_eq h3
        simp only [creates_append, hlog]
        simp [creates]
      · rename_i chg w3 h3
        obtain ⟨-, rfl⟩ := perform_eq h3
        split <;>
        · rename_i h4
          have hp := congrArg (fun x => creates x.2.log) h4
          simp only [pollLoop_creates] at hp
          rw [← hp]
          simp only [creates_append, hlog]
          simp [creates]

/-- C3, at the example of the spec: `example.com` resolves to the managed
zone `example-zone`, which already holds a TXT record set at the challenge
name and an A record set. -/
theorem Present_submits_one_change_witness :
    creates (Present (cloudAcme id 120) (cloudProvider "p") "example.com" "token" "keyAuth" 2
        (exampleCloud
          [{ Name := "_acme-challenge.example.com.", Rrdatas := ["old"], Ttl := 60, Type_ := "TXT" },
           { Name := "example.com.", Rrdatas := ["192.0.2.1"], Ttl := 300, Type_ := "A" }]
          [.ok "pending", .ok "pending", .ok "done"])).2.log =
      [("p", "example-zone",
        { Additions :=
            [{ Name := "_acme-challenge.example.com.", Rrdatas := ["keyAuth"], Ttl := 120,
               Type_ := "TXT" }]
          Deletions :=
            [{ Name := "_acme-challenge.example.com.", Rrdatas := ["old"], Ttl := 60,
               Type_ := "TXT" }]
          Id := ""
          Status := "" })] :=
  Present_submits_one_change (cloudAcme id 120) (cloudProvider "p") "example.com" "token"
    "keyAuth" 2
    (exampleCloud
      [{ Name := "_acme-challenge.example.com.", Rrdatas := ["old"], Ttl := 60, Type_ := "TXT" },
       { Name := "example.com.", Rrdatas := ["192.0.2.1"], Ttl := 300, Type_ := "A" }]
      [.ok "pending", .ok "pending", .ok "done"])
    "example-zone"
    [{ Name := "_acme-challenge.example.com.", Rrdatas := ["old"], Ttl := 60, Type_ := "TXT" }]
    rfl rfl

/-! ## Zone resolution -/

/-- C7. When the authoritative-apex lookup gives `authZone` and the
managed-zone list call gives the list `Z`, `getHostedZone` fails exactly
when `Z` is empty, then with the zone-not-found error, and otherwise returns
the name of the first element of `Z`, whatever follows it. -/
theorem getHostedZone_first_zone {σ : Type} (acme : Acme σ) (c : DNSProvider (Service σ))
    (domain : String) (w : World σ) (authZone : String) (s1 : σ) (Z : List ManagedZone)
    (hapex : acme.FindZoneByFqdn (acme.ToFqdn domain) acme.RecursiveNameservers w.st =
      (.ok authZone, s1))
    (hlist : (c.client.ManagedZonesList c.project authZone s1).1 = .ok Z) :
    ((getHostedZone acme c domain w).1 =
        .error ("No matching GoogleCloud domain found for domain " ++ authZone) ↔ Z = []) ∧
      ((∃ e, (getHostedZone acme c domain w).1 = .error e) ↔ Z = []) ∧
      (∀ z rest, Z = z :: rest → (getHostedZone acme c domain w).1 = .ok z.Name) := by
  have hres : (getHostedZone acme c domain w).1 =
      match Z with
      | [] => .error ("No matching GoogleCloud domain found for domain " ++ authZone)
      | z :: _ => .ok z.Name := by
    unfold getHostedZone
    simp only [perform, hapex, hlist]
    cases Z <;> rfl
  rw [hres]
  cases Z with
  | nil => simp
  | cons z rest => simp

/-- C7, at the example of the spec: with a second managed zone listed after
`example-zone` the result is `example-zone`, and with no managed zone listed
the result is the zone-not-found error. -/
theorem getHostedZone_first_zone_witness :
    (getHostedZone (cloudAcme id 120) (cloudProvider "p") "example.com"
        (exampleCloudWith [{ Name := "example-zone", DnsName := "example.com." },
          { Name := "other-zone", DnsName := "example.com." }] [] [])).1 = .ok "example-zone" ∧
      (getHostedZone (cloudAcme id 120) (cloudProvider "p") "example.com"
        (exampleCloudWith [] [] [])).1 =
        .error "No matching GoogleCloud domain found for domain example.com." :=
  ⟨(getHostedZone_first_zone (cloudAcme id 120) (cloudProvider "p") "example.com"
      (exampleCloudWith [{ Name := "example-zone", DnsName := "example.com." },
        { Name := "other-zone", DnsName := "example.com." }] [] [])
      "example.com."
      (exampleCloudWith [{ Name := "example-zone", DnsName := "example.com." },
        { Name := "other-zone", DnsName := "example.com." }] [] []).st
      [{ Name := "example-zone", DnsName := "example.com." },
        { Name := "other-zone", DnsName := "example.com." }] rfl rfl).2.2 _ _ rfl,
   (getHostedZone_first_zone (cloudAcme id 120) (cloudProvider "p") "example.com"
      (exampleCloudWith [] [] []) "example.com." (exampleCloudWith [] [] []).st [] rfl rfl).1.2 rfl⟩

/-! ## Construction -/

/-- C8, as amended. With an empty project, `NewDNSProviderCredentials`
returns the project-missing error and no provider whatever the key is
(absent, well-formed or malformed) and whatever the environment holds, and
leaves the outside world and the call log as they were: no credential
source is consulted.  When the variable `GCE_PROJECT` is absent or set to
the empty string, `NewDNSProvider` fails with the same error, having made no
call but the reading of the variable.  Any other value of the variable is
handed as it is to `NewDNSProviderCredentials` with a `nil` key. -/
theorem empty_project_rejected {σ κ γ ς : Type} (g : Google σ κ γ ς) (w : World σ) :
    (∀ jsonKey : Option (List Nat),
        (NewDNSProviderCredentials g "" jsonKey w : Except Error (DNSProvider ς) × World σ) =
          (.error "Google Cloud project name missing", w)) ∧
      ((g.LookupEnv "GCE_PROJECT" w.st = none ∨ g.LookupEnv "GCE_PROJECT" w.st = some "") →
        (NewDNSProvider g w : Except Error (DNSProvider ς) × World σ) =
          (.error "Google Cloud project name missing",
            { st := w.st, log := w.log ++ [Call.Getenv "GCE_PROJECT"] })) ∧
      (∀ v, g.LookupEnv "GCE_PROJECT" w.st = some v →
        (NewDNSProvider g w : Except Error (DNSProvider ς) × World σ) =
          NewDNSProviderCredentials g v none
            { st := w.st, log := w.log ++ [Call.Getenv "GCE_PROJECT"] }) := by
  refine ⟨fun jsonKey => ?_, fun henv => ?_, fun v hv => ?_⟩
  · unfold NewDNSProviderCredentials
    rw [if_pos rfl]
  · have hget : (g.LookupEnv "GCE_PROJECT" w.st).getD "" = "" := by
      rcases henv with h | h <;> simp [h]
    unfold NewDNSProvider Getenv NewDNSProviderCredentials
    simp only [hget, if_true]
  · unfold NewDNSProvider Getenv
    simp only [hv, Option.getD_some]

/-- C8, as amended, with the variable absent: the constructor rejects the
empty project given with a malformed key, and the constructor from the
environment fails having only read the variable. -/
theorem empty_project_rejected_witness :
    (NewDNSProviderCredentials (exampleGoogle (fun _ => none)) "" (some [])
        { st := (), log := [] }).1 = .error "Google Cloud project name missing" ∧
      (NewDNSProvider (exampleGoogle (fun _ => none)) { st := (), log := [] }).1 =
        .error "Google Cloud project name missing" ∧
      (NewDNSProvider (exampleGoogle (fun _ => none)) { st := (), log := [] }).2.log =
        [Call.Getenv "GCE_PROJECT"] :=
  ⟨congrArg Prod.fst
      ((empty_project_rejected (exampleGoogle (fun _ => none)) { st := (), log := [] }).1
        (some [])),
    congrArg Prod.fst
      ((empty_project_rejected (exampleGoogle (fun _ => none)) { st := (), log := [] }).2.1
        (Or.inl rfl)),
    congrArg (fun r => r.2.log)
      ((empty_project_rejected (exampleGoogle (fun _ => none)) { st := (), log := [] }).2.1
        (Or.inl rfl))⟩

/-- C8 as stated fails for a blank value that is not empty.  With
`GCE_PROJECT` set to one space, which is blank, and ambient credentials that
load, `NewDNSProvider` does not fail: the ambient credentials are consulted
and the provider is built for the project as read.  The project check
compares with the empty string and nothing is trimmed. -/
theorem NewDNSProvider_blank_project_accepted :
    blank " " = true ∧
      (NewDNSProvider
        (exampleGoogle (fun key => if key = "GCE_PROJECT" then some " " else none))
        { st := (), log := [] }).1 =
        .ok { project := " ",
              client := "dns:default:https://www.googleapis.com/auth/ndev.clouddns.readwrite" } ∧
      (NewDNSProvider
        (exampleGoogle (fun key => if key = "GCE_PROJECT" then some " " else none))
        { st := (), log := [] }).1 ≠ .error "Google Cloud project name missing" ∧
      (NewDNSProvider
        (exampleGoogle (fun key => if key = "GCE_PROJECT" then some " " else none))
        { st := (), log := [] }).2.log =
        [Call.Getenv "GCE_PROJECT",
         Call.DefaultClient "https://www.googleapis.com/auth/ndev.clouddns.readwrite",
         Call.DnsNew] :=
  ⟨by decide, rfl, fun h => Except.noConfusion h, rfl⟩

/-- C9. For a non-empty project, when the credentials load (the default
client when the key is `nil`, the client of the parsed configuration
otherwise) and the construction of the DNS client gives `svc`, the
constructor returns no error and the provider made of the project as given
and of `svc`. -/
theorem NewDNSProviderCredentials_ok {σ κ γ ς : Type} (g : Google σ κ γ ς)
    (project : String) (jsonKey : Option (List Nat)) (w : World σ)
    (client : κ) (s1 : σ) (svc : ς)
    (hproject : project ≠ "")
    (hcred : match jsonKey with
      | none => g.DefaultClient g.NdevClouddnsReadwriteScope w.st = (.ok client, s1)
      | some key => ∃ conf, g.JWTConfigFromJSON key g.NdevClouddnsReadwriteScope w.st =
          (.ok conf, s1) ∧ g.ConfClient conf = client)
    (hnew : (g.DnsNew client s1).1 = .ok svc) :
    (NewDNSProviderCredentials g project jsonKey w).1 =
      .ok { project := project, client := svc } := by
  unfold NewDNSProviderCredentials
  rw [if_neg hproject]
  cases jsonKey with
  | none =>
    simp only at hcred
    simp only [perform, hcred, hnew]
  | some key =>
    obtain ⟨conf, hconf, rfl⟩ := hcred
    simp only [perform, hconf, hnew]

/-- C9, for a project with surrounding blanks and the ambient credentials. -/
theorem NewDNSProviderCredentials_ok_witness :
    (NewDNSProviderCredentials (exampleGoogle (fun _ => none)) " my-project " none
        { st := (), log := [] }).1 =
      .ok { project := " my-project ",
            client := "dns:default:https://www.googleapis.com/auth/ndev.clouddns.readwrite" } :=
  NewDNSProviderCredentials_ok (exampleGoogle (fun _ => none)) " my-project " none
    { st := (), log := [] } "default:https://www.googleapis.com/auth/ndev.clouddns.readwrite" ()
    "dns:default:https://www.googleapis.com/auth/ndev.clouddns.readwrite"
    (by decide) rfl rfl

/-! ## Timeout -/

/-- Every sleep of the polling loop lasts one second. -/
theorem pollLoop_sleeps {σ : Type} (c : DNSProvider (Service σ)) (zone : String)
    (fuel : Nat) (chg : Change) (w : World σ) :
    ∃ k, k ≤ fuel ∧
      sleeps (pollLoop c zone fuel chg w).2.log = sleeps w.log ++ List.replicate k Second := by
  induction fuel generalizing chg w with
  | zero =>
    refine ⟨0, le_refl _, ?_⟩
    unfold pollLoop
    split <;> simp
  | succ n ih =>
    unfold pollLoop
    split
    · split
      · rename_i err w1 h
        obtain ⟨-, rfl⟩ := perform_eq h
        exact ⟨1, by omega, by simp [Sleep, sleeps]⟩
      · rename_i chg1 w1 h
        obtain ⟨-, rfl⟩ := perform_eq h
        obtain ⟨k, hk, hs⟩ := ih chg1
          { st := (c.client.ChangesGet c.project zone chg.Id (Sleep Second w).st).2,
            log := (Sleep Second w).log ++ [Call.ChangesGet c.project zone chg.Id] }
        refine ⟨k + 1, by omega, ?_⟩
        rw [hs]
        simp [Sleep, sleeps, List.replicate_succ]
    · exact ⟨0, by omega, by simp⟩

/-- The sleeps of `Present` are those of its polling loop. -/
theorem Present_sleeps {σ : Type} (acme : Acme σ) (c : DNSProvider (Service σ))
    (domain token keyAuth : String) (fuel : Nat) (w : World σ) :
    ∃ k, k ≤ fuel ∧
      sleeps (Present acme c domain token keyAuth fuel w).2.log =
        sleeps w.log ++ List.replicate k Second := by
  have hlog := (getHostedZone_log acme c domain w).2.2
  unfold Present
  simp only
  split
  · rename_i err w1 h1
    rw [h1] at hlog
    exact ⟨0, by omega, by simpa using hlog⟩
  · rename_i zone w1 h1
    rw [h1] at hlog
    simp only at hlog
    split
    · rename_i err w2 h2
      obtain ⟨-, rfl⟩ := perform_eq h2
      refine ⟨0, by omega, ?_⟩
      simp only [sleeps_append, hlog]
      simp [sleeps]
    · rename_i found w2 h2
      obtain ⟨-, rfl⟩ := perform_eq h2
      split
      · rename_i err w3 h3
        obtain ⟨-, rfl⟩ := perform_eq h3
        refine ⟨0, by omega, ?_⟩
        simp only [sleeps_append, hlog]
        simp [sleeps]
      · rename_i chg w3 h3
        obtain ⟨-, rfl⟩ := perform_eq h3
        split <;>
        · rename_i h4
          have hp := congrArg (fun x => sleeps x.2.log) h4
          simp only at hp
          obtain ⟨k, hk, hs⟩ := pollLoop_sleeps c zone fuel chg _
          rw [hs] at hp
          refine ⟨k, hk, ?_⟩
          rw [← hp]
          simp only [sleeps_append, hlog]
          simp [sleeps]

/-- C10. For every provider, `Timeout` returns 180 seconds and 5 seconds, in
nanoseconds 180000000000 and 5000000000, the same for any two providers; the
interval differs from the duration of every sleep of the polling loop of
`Present`, which is one second. -/
theorem Timeout_fixed {ς : Type} (c : DNSProvider ς) :
    Timeout c = (180 * Second, 5 * Second) ∧
      Timeout c = (180000000000, 5000000000) ∧
      (∀ (ς2 : Type) (c2 : DNSProvider ς2), Timeout c2 = Timeout c) ∧
      (∀ (σ : Type) (acme : Acme σ) (p : DNSProvider (Service σ))
          (domain token keyAuth : String) (fuel : Nat) (w : World σ),
        ∃ k, sleeps (Present acme p domain token keyAuth fuel w).2.log =
            sleeps w.log ++ List.replicate k (1000000000 : Int)) ∧
      (Timeout c).2 ≠ 1000000000 := by
  have hsec : Second = 1000000000 := by decide
  refine ⟨rfl, ?_, fun _ _ => rfl, ?_, ?_⟩
  · simp only [Timeout, hsec]
    norm_num
  · intro σ acme p domain token keyAuth fuel w
    obtain ⟨k, -, hk⟩ := Present_sleeps acme p domain token keyAuth fuel w
    rw [hsec] at hk
    exact ⟨k, hk⟩
  · simp only [Timeout, hsec]
    norm_num

/-! ## Runs against the modelled world: frame facts -/

/-- In the modelled world zone resolution leaves the outside state as it is. -/
theorem getHostedZone_cloud_st (digest : String → String) (ttl : Int) (project domain : String)
    (w : World Cloud) :
    (getHostedZone (cloudAcme digest ttl) (cloudProvider project) domain w).2.st = w.st := by
  unfold getHostedZone
  split
  · rename_i err w1 h
    obtain ⟨-, rfl⟩ := perform_eq h
    rfl
  · rename_i authZone w1 h
    obtain ⟨-, rfl⟩ := perform_eq h
    split
    · rename_i err w2 h2
      obtain ⟨-, rfl⟩ := perform_eq h2
      rfl
    · rename_i zones w2 h2
      obtain ⟨-, rfl⟩ := perform_eq h2
      split <;> rfl

/-- In the modelled world the result of zone resolution is read from the
public DNS table and the managed-zone table alone. -/
theorem getHostedZone_cloud_congr (digest : String → String) (ttl : Int)
    (project domain : String) (w w2 : World Cloud)
    (hapex : w2.st.apex = w.st.apex) (hzones : w2.st.zones = w.st.zones) :
    (getHostedZone (cloudAcme digest ttl) (cloudProvider project) domain w2).1 =
      (getHostedZone (cloudAcme digest ttl) (cloudProvider project) domain w).1 := by
  unfold getHostedZone
  simp only [perform, cloudAcme, cloudProvider, cloudService, hapex, hzones]
  cases w.st.apex (ToFqdn domain) with
  | error e => rfl
  | ok authZone =>
    simp only [hzones]
    cases w.st.zones project authZone <;> rfl

/-- A status fetch of the modelled service changes nothing but the script. -/
theorem ChangesGet_cloud_frame (project zone changeId : String) (s : Cloud) :
    (cloudService.ChangesGet project zone changeId s).2.store = s.store ∧
      (cloudService.ChangesGet project zone changeId s).2.apex = s.apex ∧
      (cloudService.ChangesGet project zone changeId s).2.zones = s.zones := by
  unfold cloudService
  simp only
  split <;> exact ⟨rfl, rfl, rfl⟩

/-- The polling loop changes neither the stored record sets nor the tables
of the modelled world. -/
theorem pollLoop_cloud_frame (project zone : String) (fuel : Nat) (chg : Change)
    (w : World Cloud) :
    (pollLoop (cloudProvider project) zone fuel chg w).2.st.store = w.st.store ∧
      (pollLoop (cloudProvider project) zone fuel chg w).2.st.apex = w.st.apex ∧
      (pollLoop (cloudProvider project) zone fuel chg w).2.st.zones = w.st.zones := by
  induction fuel generalizing chg w with
  | zero =>
    unfold pollLoop
    split <;> exact ⟨rfl, rfl, rfl⟩
  | succ n ih =>
    unfold pollLoop
    split
    · split
      · rename_i err w1 h
        obtain ⟨-, rfl⟩ := perform_eq h
        exact ChangesGet_cloud_frame project zone chg.Id w.st
      · rename_i chg1 w1 h
        obtain ⟨-, rfl⟩ := perform_eq h
        obtain ⟨h1, h2, h3⟩ := ih chg1
          { st := ((cloudProvider project).client.ChangesGet (cloudProvider project).project zone
              chg.Id (Sleep Second w).st).2,
            log := (Sleep Second w).log ++
              [Call.ChangesGet (cloudProvider project).project zone chg.Id] }
        obtain ⟨g1, g2, g3⟩ := ChangesGet_cloud_frame project zone chg.Id w.st
        exact ⟨h1.trans g1, h2.trans g2, h3.trans g3⟩
    · exact ⟨rfl, rfl, rfl⟩

/-- A change submission accepted by the modelled service applies the change
to the zone and leaves the tables as they are. -/
theorem ChangesCreate_cloud_ok (project zone : String) (change chg : Change) (s : Cloud)
    (h : (cloudService.ChangesCreate project zone change s).1 = .ok chg) :
    (cloudService.ChangesCreate project zone change s).2.store = s.submit project zone change ∧
      (cloudService.ChangesCreate project zone change s).2.apex = s.apex ∧
      (cloudService.ChangesCreate project zone change s).2.zones = s.zones ∧
      (cloudService.ChangesCreate project zone change s).2.nextId = s.nextId + 1 ∧
      (cloudService.ChangesCreate project zone change s).2.script = s.script.tail ∧
      chg.Id = toString s.nextId ∧
      chg.Status = (match s.script.head? with
        | some (.ok status) => status
        | _ => "done") := by
  unfold cloudService at h ⊢
  simp only at h ⊢
  rcases hs : s.script with _ | ⟨r, rest⟩
  · rw [hs] at h
    simp only [Except.ok.injEq] at h
    subst h
    simp
  · rw [hs] at h
    cases r with
    | error e => simp at h
    | ok status =>
      simp only [Except.ok.injEq] at h
      subst h
      simp

/-! ## Present: the run after an accepted submission -/

/-- When zone resolution, the filtered listing and the submission succeed,
`Present` is its polling loop started from the submitted change. -/
theorem Present_run {σ : Type} (acme : Acme σ) (c : DNSProvider (Service σ))
    (domain token keyAuth : String) (fuel : Nat) (w : World σ)
    (zone : String) (rrsets : List ResourceRecordSet) (chg : Change)
    (hzone : (getHostedZone acme c domain w).1 = .ok zone)
    (hlist : (c.client.ResourceRecordSetsList c.project zone
        (some (DNS01Record acme domain keyAuth).1) (some "TXT")
        (getHostedZone acme c domain w).2.st).1 = .ok rrsets)
    (hcreate : (c.client.ChangesCreate c.project zone (challengeChange acme domain keyAuth rrsets)
        (c.client.ResourceRecordSetsList c.project zone
          (some (DNS01Record acme domain keyAuth).1) (some "TXT")
          (getHostedZone acme c domain w).2.st).2).1 = .ok chg) :
    Present acme c domain token keyAuth fuel w =
      (((pollLoop c zone fuel chg
          { st := (c.client.ChangesCreate c.project zone
              (challengeChange acme domain keyAuth rrsets)
              (c.client.ResourceRecordSetsList c.project zone
                (some (DNS01Record acme domain keyAuth).1) (some "TXT")
                (getHostedZone acme c domain w).2.st).2).2
            log := (getHostedZone acme c domain w).2.log ++
              [Call.ResourceRecordSetsList c.project zone
                (some (DNS01Record acme domain keyAuth).1) (some "TXT"),
               Call.ChangesCreate c.project zone
                (challengeChange acme domain keyAuth rrsets)] }).1).map
          (Except.map (fun _ => ())),
        (pollLoop c zone fuel chg
          { st := (c.client.ChangesCreate c.project zone
              (challengeChange acme domain keyAuth rrsets)
              (c.client.ResourceRecordSetsList c.project zone
                (some (DNS01Record acme domain keyAuth).1) (some "TXT")
                (getHostedZone acme c domain w).2.st).2).2
            log := (getHostedZone acme c domain w).2.log ++
              [Call.ResourceRecordSetsList c.project zone
                (some (DNS01Record acme domain keyAuth).1) (some "TXT"),
               Call.ChangesCreate c.project zone
                (challengeChange acme domain keyAuth rrsets)] }).2) := by
  rcases hgz : getHostedZone acme c domain w with ⟨r, w1⟩
  rw [hgz] at hzone hlist hcreate
  simp only at hzone hlist hcreate
  subst hzone
  unfold Present
  simp only [hgz, perform, hlist]
  unfold challengeChange at hcreate ⊢
  cases rrsets with
  | nil =>
    simp only [List.length_nil, gt_iff_lt, lt_self_iff_false, if_false, hcreate,
      List.append_assoc, List.singleton_append]
    split <;> (rename_i h4; rw [h4]; rfl)
  | cons r rs =>
    simp only [List.length_cons, gt_iff_lt, Nat.zero_lt_succ, if_true, hcreate,
      List.append_assoc, List.singleton_append]
    split <;> (rename_i h4; rw [h4]; rfl)

/-- When zone resolution fails, `Present` returns its error. -/
theorem Present_zone_error {σ : Type} (acme : Acme σ) (c : DNSProvider (Service σ))
    (domain token keyAuth : String) (fuel : Nat) (w : World σ) (e : Error)
    (hzone : (getHostedZone acme c domain w).1 = .error e) :
    Present acme c domain token keyAuth fuel w =
      (some (.error e), (getHostedZone acme c domain w).2) := by
  rcases hgz : getHostedZone acme c domain w with ⟨r, w1⟩
  rw [hgz] at hzone
  simp only at hzone
  subst hzone
  unfold Present
  simp only [hgz]

/-- When the submission is rejected, `Present` returns its error. -/
theorem Present_create_error {σ : Type} (acme : Acme σ) (c : DNSProvider (Service σ))
    (domain token keyAuth : String) (fuel : Nat) (w : World σ)
    (zone : String) (rrsets : List ResourceRecordSet) (e : Error)
    (hzone : (getHostedZone acme c domain w).1 = .ok zone)
    (hlist : (c.client.ResourceRecordSetsList c.project zone
        (some (DNS01Record acme domain keyAuth).1) (some "TXT")
        (getHostedZone acme c domain w).2.st).1 = .ok rrsets)
    (hcreate : (c.client.ChangesCreate c.project zone (challengeChange acme domain keyAuth rrsets)
        (c.client.ResourceRecordSetsList c.project zone
          (some (DNS01Record acme domain keyAuth).1) (some "TXT")
          (getHostedZone acme c domain w).2.st).2).1 = .error e) :
    (Present acme c domain token keyAuth fuel w).1 = some (.error e) := by
  rcases hgz : getHostedZone acme c domain w with ⟨r, w1⟩
  rw [hgz] at hzone hlist hcreate
  simp only at hzone hlist hcreate
  subst hzone
  unfold Present
  simp only [hgz, perform, hlist]
  unfold challengeChange at hcreate
  cases rrsets with
  | nil =>
    simp only [List.length_nil, gt_iff_lt, lt_self_iff_false, if_false, hcreate]
  | cons r rs =>
    simp only [List.length_cons, gt_iff_lt, Nat.zero_lt_succ, if_true, hcreate]

/-- In the modelled world, after zone resolution and an accepted submission,
`Present` is its polling loop started in a world whose outside state is the
one the submission left. -/
theorem Present_cloud_run (digest : String → String) (ttl : Int)
    (project domain token keyAuth : String) (w : World Cloud) (zone : String) (chg : Change)
    (hzone : (getHostedZone (cloudAcme digest ttl) (cloudProvider project) domain w).1 = .ok zone)
    (hcreate : (cloudService.ChangesCreate project zone
        (challengeChange (cloudAcme digest ttl) domain keyAuth
          (listFilter (some (DNS01Record (cloudAcme digest ttl) domain keyAuth).1) (some "TXT")
            (w.st.store project zone))) w.st).1 = .ok chg) :
    ∃ W : World Cloud,
      W.st = (cloudService.ChangesCreate project zone
        (challengeChange (cloudAcme digest ttl) domain keyAuth
          (listFilter (some (DNS01Record (cloudAcme digest ttl) domain keyAuth).1) (some "TXT")
            (w.st.store project zone))) w.st).2 ∧
      fetches W.log = fetches w.log ∧ sleeps W.log = sleeps w.log ∧
      ∀ fuel, Present (cloudAcme digest ttl) (cloudProvider project) domain token keyAuth fuel w =
        (((pollLoop (cloudProvider project) zone fuel chg W).1).map (Except.map (fun _ => ())),
          (pollLoop (cloudProvider project) zone fuel chg W).2) := by
  have hst := getHostedZone_cloud_st digest ttl project domain w
  have hzlog := getHostedZone_log (cloudAcme digest ttl) (cloudProvider project) domain w
  refine ⟨_, ?_, ?_, ?_, fun fuel => Present_run (cloudAcme digest ttl) (cloudProvider project)
    domain token keyAuth fuel w zone
    (listFilter (some (DNS01Record (cloudAcme digest ttl) domain keyAuth).1) (some "TXT")
      (w.st.store project zone)) chg hzone (by rw [hst]; rfl) (by rw [hst]; exact hcreate)⟩
  · simp only [hst]
    rfl
  · simp only [fetches_append, hzlog.2.1]
    simp [fetches]
  · simp only [sleeps_append, hzlog.2.2]
    simp [sleeps]

/-! ## Present: the polling loop against a script of statuses -/

/-- The polling loop against the modelled service.  The change in hand has
the first status of the sequence `pending ++ [last]`, the script holds the
remaining ones, every status of `pending` is `pending` and `last` is not.
With at least `pending.length` iterations allowed the loop leaves with a
change of status `last`, after exactly `pending.length` fetches, each
preceded by a sleep of one second; with fewer it is still polling. -/
theorem pollLoop_cloud_run (project zone : String) (last : String)
    (rest : List (Except Error String)) (hlast : last ≠ "pending") (pending : List String) :
    (∀ s ∈ pending, s = "pending") →
    ∀ (fuel : Nat) (chg : Change) (w : World Cloud) (fetched : List String),
      chg.Status :: fetched = pending ++ [last] →
      w.st.script = fetched.map .ok ++ rest →
      (pending.length ≤ fuel →
        (∃ chg2, (pollLoop (cloudProvider project) zone fuel chg w).1 = some (.ok chg2) ∧
          chg2.Status = last) ∧
        (pollLoop (cloudProvider project) zone fuel chg w).2.st.script = rest ∧
        fetches (pollLoop (cloudProvider project) zone fuel chg w).2.log =
          fetches w.log ++ List.replicate pending.length (project, zone, chg.Id) ∧
        sleeps (pollLoop (cloudProvider project) zone fuel chg w).2.log =
          sleeps w.log ++ List.replicate pending.length Second) ∧
      (fuel < pending.length →
        (pollLoop (cloudProvider project) zone fuel chg w).1 = none) := by
  induction pending with
  | nil =>
    intro _ fuel chg w fetched hseq hscript
    simp only [List.nil_append, List.cons.injEq] at hseq
    obtain ⟨hst, rfl⟩ := hseq
    have hne : chg.Status ≠ "pending" := by rw [hst]; exact hlast
    have hrun : pollLoop (cloudProvider project) zone fuel chg w = (some (.ok chg), w) := by
      cases fuel <;> (unfold pollLoop; rw [if_neg hne])
    rw [hrun]
    refine ⟨fun _ => ⟨⟨chg, rfl, hst⟩, by simpa using hscript, by simp, by simp⟩, fun h => ?_⟩
    simp at h
  | cons p ps ih =>
    intro hpend fuel chg w fetched hseq hscript
    have hp : chg.Status = "pending" := by
      have : chg.Status = p := by
        simp only [List.cons_append, List.cons.injEq] at hseq
        exact hseq.1
      rw [this]
      exact hpend p (List.mem_cons_self _ _)
    have hf : fetched = ps ++ [last] := by
      simp only [List.cons_append, List.cons.injEq] at hseq
      exact hseq.2
    have hps : ∀ s ∈ ps, s = "pending" := fun s hs => hpend s (List.mem_cons_of_mem _ hs)
    cases fuel with
    | zero =>
      refine ⟨fun h => ?_, fun _ => ?_⟩
      · simp at h
      · unfold pollLoop
        rw [if_pos hp]
    | succ f =>
      rcases hfe : fetched with _ | ⟨x, fetched2⟩
      · rw [hfe] at hf
        cases ps <;> simp at hf
      · rw [hfe] at hf hscript
        have hget : (cloudProvider project).client.ChangesGet (cloudProvider project).project
            zone chg.Id (Sleep Second w).st =
            (.ok { Additions := [], Deletions := [], Id := chg.Id, Status := x },
              { w.st with script := fetched2.map .ok ++ rest }) := by
          simp only [cloudProvider, cloudService, Sleep, hscript, List.map_cons, List.cons_append]
        have hstep : pollLoop (cloudProvider project) zone (f + 1) chg w =
            pollLoop (cloudProvider project) zone f
              { Additions := [], Deletions := [], Id := chg.Id, Status := x }
              { st := { w.st with script := fetched2.map .ok ++ rest },
                log := (Sleep Second w).log ++ [Call.ChangesGet project zone chg.Id] } := by
          conv_lhs => unfold pollLoop
          rw [if_pos hp]
          simp only [perform, hget]
          rfl
        rw [hstep]
        obtain ⟨ih1, ih2⟩ := ih hps f
          { Additions := [], Deletions := [], Id := chg.Id, Status := x }
          { st := { w.st with script := fetched2.map .ok ++ rest },
            log := (Sleep Second w).log ++ [Call.ChangesGet project zone chg.Id] }
          fetched2 hf rfl
        refine ⟨fun h => ?_, fun h => ?_⟩
        · obtain ⟨h1, h2, h3, h4⟩ := ih1 (by simpa using h)
          refine ⟨h1, h2, ?_, ?_⟩
          · rw [h3]
            simp [Sleep, fetches, List.replicate_succ]
          · rw [h4]
            simp [Sleep, sleeps, List.replicate_succ]
        · exact ih2 (by simpa using h)

/-- The polling loop leaves without error only with a change whose status
is not `pending`. -/
theorem pollLoop_exit {σ : Type} (c : DNSProvider (Service σ)) (zone : String)
    (fuel : Nat) (chg : Change) (w : World σ) (chg2 : Change)
    (h : (pollLoop c zone fuel chg w).1 = some (.ok chg2)) : chg2.Status ≠ "pending" := by
  induction fuel generalizing chg w with
  | zero =>
    unfold pollLoop at h
    split at h
    · simp at h
    · rename_i hne
      simp only [Option.some.injEq, Except.ok.injEq] at h
      rw [← h]
      exact hne
  | succ n ih =>
    unfold pollLoop at h
    split at h
    · split at h
      · simp at h
      · exact ih _ _ h
    · rename_i hne
      simp only [Option.some.injEq, Except.ok.injEq] at h
      rw [← h]
      exact hne

/-- C4. In the modelled world, let the submission and the successive status
fetches report the statuses `pending ++ [last]`, where every status of
`pending` is `pending` and `last` is not, so that `last` is the first
non-pending status and `pending.length` the number of fetches before it is
seen.  Whenever the polling loop is allowed at least that many iterations,
`Present` returns success having made exactly `pending.length` status
fetches, all for the submitted change, each after a sleep of one second:
none when the submission already reports a non-pending status.  With fewer
iterations allowed it has not returned.  For every service, the loop leaves
without error only on a status that is not `pending`. -/
theorem Present_returns_after_first_non_pending (digest : String → String) (ttl : Int)
    (project domain token keyAuth : String) (w : World Cloud) (zone : String)
    (pending : List String) (last : String) (rest : List (Except Error String))
    (hzone : (getHostedZone (cloudAcme digest ttl) (cloudProvider project) domain w).1 = .ok zone)
    (hscript : w.st.script = (pending ++ [last]).map .ok ++ rest)
    (hpend : ∀ s ∈ pending, s = "pending") (hlast : last ≠ "pending") :
    (∀ fuel, pending.length ≤ fuel →
      (Present (cloudAcme digest ttl) (cloudProvider project) domain token keyAuth fuel w).1 =
          some (.ok ()) ∧
        fetches (Present (cloudAcme digest ttl) (cloudProvider project) domain token keyAuth
            fuel w).2.log =
          fetches w.log ++ List.replicate pending.length (project, zone, toString w.st.nextId) ∧
        sleeps (Present (cloudAcme digest ttl) (cloudProvider project) domain token keyAuth
            fuel w).2.log =
          sleeps w.log ++ List.replicate pending.length Second ∧
        (Present (cloudAcme digest ttl) (cloudProvider project) domain token keyAuth
            fuel w).2.st.script = rest) ∧
      (∀ fuel, fuel < pending.length →
        (Present (cloudAcme digest ttl) (cloudProvider project) domain token keyAuth fuel w).1 =
          none) ∧
      (∀ (σ : Type) (c : DNSProvider (Service σ)) (zone2 : String) (fuel : Nat)
          (chg chg2 : Change) (w2 : World σ),
        (pollLoop c zone2 fuel chg w2).1 = some (.ok chg2) → chg2.Status ≠ "pending") := by
  obtain ⟨s0, fetched, hsf⟩ : ∃ s0 fetched, pending ++ [last] = s0 :: fetched := by
    cases pending with
    | nil => exact ⟨last, [], rfl⟩
    | cons p ps => exact ⟨p, ps ++ [last], rfl⟩
  rw [hsf] at hscript
  obtain ⟨chg0, hc⟩ : ∃ chg0, (cloudService.ChangesCreate project zone
      (challengeChange (cloudAcme digest ttl) domain keyAuth
        (listFilter (some (DNS01Record (cloudAcme digest ttl) domain keyAuth).1) (some "TXT")
          (w.st.store project zone))) w.st).1 = .ok chg0 := by
    simp only [cloudService, hscript, List.map_cons, List.cons_append]
    exact ⟨_, rfl⟩
  obtain ⟨-, -, -, -, hcs, hcid, hcstatus⟩ := ChangesCreate_cloud_ok project zone _ chg0 w.st hc
  simp only [hscript, List.map_cons, List.cons_append, List.tail_cons, List.head?_cons] at hcs hcstatus
  obtain ⟨W, hW, hWf, hWsl, hrun⟩ :=
    Present_cloud_run digest ttl project domain token keyAuth w zone chg0 hzone hc
  have hWs : W.st.script = fetched.map .ok ++ rest := by rw [hW, hcs]
  have hpoll := fun fuel => pollLoop_cloud_run project zone last rest hlast pending hpend fuel
    chg0 W fetched (by rw [hcstatus, hsf]) hWs
  refine ⟨fun fuel hfuel => ?_, fun fuel hfuel => ?_, fun σ c zone2 fuel chg chg2 w2 h =>
    pollLoop_exit c zone2 fuel chg w2 chg2 h⟩
  · obtain ⟨⟨chg2, hres, -⟩, hs, hf, hsl⟩ := (hpoll fuel).1 hfuel
    rw [hrun fuel]
    refine ⟨?_, ?_, ?_, hs⟩
    · simp only [hres]
      rfl
    · simp only [hf, hWf, hcid]
    · simp only [hsl, hWsl]
  · have hres := (hpoll fuel).2 hfuel
    rw [hrun fuel]
    simp only [hres]
    rfl

/-- C4, at the example of the spec: the submission and the first fetch
report `pending`, the second fetch reports `done`.  With two iterations
allowed `Present` returns success after exactly two fetches; with one it has
not returned. -/
theorem Present_returns_after_first_non_pending_witness :
    (Present (cloudAcme id 120) (cloudProvider "p") "example.com" "token" "keyAuth" 2
        (exampleCloud [] [.ok "pending", .ok "pending", .ok "done"])).1 = some (.ok ()) ∧
      fetches (Present (cloudAcme id 120) (cloudProvider "p") "example.com" "token" "keyAuth" 2
        (exampleCloud [] [.ok "pending", .ok "pending", .ok "done"])).2.log =
        [("p", "example-zone", "0"), ("p", "example-zone", "0")] ∧
      (Present (cloudAcme id 120) (cloudProvider "p") "example.com" "token" "keyAuth" 1
        (exampleCloud [] [.ok "pending", .ok "pending", .ok "done"])).1 = none :=
  have h := Present_returns_after_first_non_pending id 120 "p" "example.com" "token" "keyAuth"
    (exampleCloud [] [.ok "pending", .ok "pending", .ok "done"]) "example-zone"
    ["pending", "pending"] "done" [] rfl rfl (by decide) (by decide)
  ⟨(h.1 2 (le_refl 2)).1, (h.1 2 (le_refl 2)).2.1, h.2.1 1 (by decide)⟩

/-! ## CleanUp: one deletion per matching record set -/

/-- One step of the deletion loop whose submission is accepted. -/
theorem deleteEach_cons_ok {σ : Type} (c : DNSProvider (Service σ)) (zone : String)
    (r : ResourceRecordSet) (records : List ResourceRecordSet) (w : World σ) (chg : Change)
    (h : (c.client.ChangesCreate c.project zone (deletionOf [r]) w.st).1 = .ok chg) :
    deleteEach c zone (r :: records) w =
      deleteEach c zone records
        { st := (c.client.ChangesCreate c.project zone (deletionOf [r]) w.st).2,
          log := w.log ++ [Call.ChangesCreate c.project zone (deletionOf [r])] } := by
  unfold deletionOf at h ⊢
  conv_lhs => unfold deleteEach
  simp only [perform, h]

/-- One step of the deletion loop whose submission is rejected. -/
theorem deleteEach_cons_error {σ : Type} (c : DNSProvider (Service σ)) (zone : String)
    (r : ResourceRecordSet) (records : List ResourceRecordSet) (w : World σ) (e : Error)
    (h : (c.client.ChangesCreate c.project zone (deletionOf [r]) w.st).1 = .error e) :
    deleteEach c zone (r :: records) w =
      (.error e,
        { st := (c.client.ChangesCreate c.project zone (deletionOf [r]) w.st).2,
          log := w.log ++ [Call.ChangesCreate c.project zone (deletionOf [r])] }) := by
  unfold deletionOf at h ⊢
  conv_lhs => unfold deleteEach
  simp only [perform, h]

/-- The modelled service accepts a submission unless the script says
otherwise. -/
theorem ChangesCreate_cloud_accepts (project zone : String) (change : Change) (s : Cloud)
    (h : ∀ r ∈ s.script.take 1, ∃ status, r = .ok status) :
    ∃ chg, (cloudService.ChangesCreate project zone change s).1 = .ok chg := by
  unfold cloudService
  simp only
  rcases hs : s.script with _ | ⟨r, rest⟩
  · exact ⟨_, rfl⟩
  · rw [hs] at h
    obtain ⟨status, rfl⟩ := h r (by simp)
    exact ⟨_, rfl⟩

/-- The modelled service rejects a submission when the script says so, and
then changes nothing but the script. -/
theorem ChangesCreate_cloud_rejects (project zone : String) (change : Change) (s : Cloud)
    (e : Error) (rest : List (Except Error String)) (h : s.script = .error e :: rest) :
    (cloudService.ChangesCreate project zone change s).1 = .error e ∧
      (cloudService.ChangesCreate project zone change s).2.store = s.store ∧
      (cloudService.ChangesCreate project zone change s).2.apex = s.apex ∧
      (cloudService.ChangesCreate project zone change s).2.zones = s.zones ∧
      (cloudService.ChangesCreate project zone change s).2.script = rest := by
  unfold cloudService
  simp [h]

/-- Deleting `r` and then the record sets `rest` from a zone leaves what
deleting `r :: rest` at once leaves. -/
theorem submit_deletions (s s1 : Cloud) (project zone : String) (r : ResourceRecordSet)
    (rest : List ResourceRecordSet)
    (h : s1.store = s.submit project zone (deletionOf [r])) :
    s1.submit project zone (deletionOf rest) = s.submit project zone (deletionOf (r :: rest)) := by
  funext p z
  simp only [Cloud.submit, h, applyChange, deletionOf]
  by_cases hpz : p = project ∧ z = zone
  · simp only [hpz, and_self, if_true, List.append_nil, List.filter_filter]
    apply List.filter_congr
    intro x _
    simp [Bool.and_comm]
  · simp only [hpz, if_false]

/-- Deleting nothing leaves the store as it is. -/
theorem submit_no_deletions (s : Cloud) (project zone : String) :
    s.submit project zone (deletionOf []) = s.store := by
  funext p z
  simp only [Cloud.submit, applyChange, deletionOf]
  split <;> simp

/-- The deletion loop against any service.  When the submission for each
record set, made in the state that the deletions before it have left, is
accepted, the loop succeeds and its calls are one deletion-only submission
per record set, in order, and nothing else. -/
theorem deleteEach_accepted {σ : Type} (c : DNSProvider (Service σ)) (zone : String)
    (records : List ResourceRecordSet) :
    ∀ w : World σ,
      (∀ k r, records[k]? = some r →
        ∃ chg, (c.client.ChangesCreate c.project zone (deletionOf [r])
          (deleteEach c zone (records.take k) w).2.st).1 = .ok chg) →
      (deleteEach c zone records w).1 = .ok () ∧
        (deleteEach c zone records w).2.log =
          w.log ++ records.map (fun r => Call.ChangesCreate c.project zone (deletionOf [r])) := by
  induction records with
  | nil =>
    intro w _
    unfold deleteEach
    exact ⟨rfl, by simp⟩
  | cons r rest ih =>
    intro w hsub
    obtain ⟨chg, hc⟩ : ∃ chg, (c.client.ChangesCreate c.project zone (deletionOf [r])
        w.st).1 = .ok chg := by
      have h0 := hsub 0 r (by simp)
      simp only [List.take_zero] at h0
      unfold deleteEach at h0
      exact h0
    rw [deleteEach_cons_ok c zone r rest w chg hc]
    obtain ⟨h1, h2⟩ := ih
      { st := (c.client.ChangesCreate c.project zone (deletionOf [r]) w.st).2,
        log := w.log ++ [Call.ChangesCreate c.project zone (deletionOf [r])] }
      (by
        intro k x hx
        have hk := hsub (k + 1) x (by simpa using hx)
        rw [List.take_succ_cons, deleteEach_cons_ok c zone r _ w chg hc] at hk
        exact hk)
    exact ⟨h1, h2.trans (by simp)⟩

/-- The deletion loop against the modelled service when the script accepts
the submissions for the record sets `pre` and rejects the next one with `e`:
the loop returns `e`, its calls are the submissions for `pre` and for the
rejected record set and nothing more, and the zone is left without the
record sets `pre`. -/
theorem deleteEach_cloud_fail (project zone : String) (r : ResourceRecordSet)
    (post : List ResourceRecordSet) (e : Error) (rest : List (Except Error String))
    (pre : List ResourceRecordSet) :
    ∀ (w : World Cloud) (oks : List String),
      oks.length = pre.length →
      w.st.script = oks.map .ok ++ .error e :: rest →
      (deleteEach (cloudProvider project) zone (pre ++ r :: post) w).1 = .error e ∧
        (deleteEach (cloudProvider project) zone (pre ++ r :: post) w).2.log =
          w.log ++ (pre ++ [r]).map (fun x => Call.ChangesCreate project zone (deletionOf [x])) ∧
        (deleteEach (cloudProvider project) zone (pre ++ r :: post) w).2.st.store =
          w.st.submit project zone (deletionOf pre) ∧
        (deleteEach (cloudProvider project) zone (pre ++ r :: post) w).2.st.script = rest ∧
        (deleteEach (cloudProvider project) zone (pre ++ r :: post) w).2.st.apex = w.st.apex ∧
        (deleteEach (cloudProvider project) zone (pre ++ r :: post) w).2.st.zones =
          w.st.zones := by
  induction pre with
  | nil =>
    intro w oks hlen hscript
    have hoks : oks = [] := List.length_eq_zero.mp hlen
    subst hoks
    simp only [List.map_nil, List.nil_append] at hscript
    obtain ⟨hc, hstore, hapex, hzones, hs⟩ :=
      ChangesCreate_cloud_rejects project zone (deletionOf [r]) w.st e rest hscript
    rw [List.nil_append, deleteEach_cons_error (cloudProvider project) zone r post w e hc]
    refine ⟨rfl, ?_, ?_, hs, hapex, hzones⟩
    · simp [cloudProvider]
    · rw [submit_no_deletions]
      exact hstore
  | cons a pre ih =>
    intro w oks hlen hscript
    rcases oks with _ | ⟨status, oks⟩
    · simp at hlen
    · simp only [List.length_cons, Nat.add_right_cancel_iff] at hlen
      simp only [List.map_cons, List.cons_append] at hscript
      obtain ⟨chg, hc⟩ := ChangesCreate_cloud_accepts project zone (deletionOf [a]) w.st
        (fun x hx => by
          rw [hscript] at hx
          simp only [List.take_succ_cons, List.take_zero, List.mem_singleton] at hx
          exact ⟨status, hx⟩)
      obtain ⟨hstore, hapex, hzones, -, hs, -, -⟩ :=
        ChangesCreate_cloud_ok project zone (deletionOf [a]) chg w.st hc
      rw [List.cons_append, deleteEach_cons_ok (cloudProvider project) zone a _ w chg hc]
      obtain ⟨h1, h2, h3, h4, h5, h6⟩ := ih
        { st := (cloudService.ChangesCreate project zone (deletionOf [a]) w.st).2,
          log := w.log ++ [Call.ChangesCreate project zone (deletionOf [a])] }
        oks hlen (by simp only [hs, hscript, List.tail_cons])
      refine ⟨h1, h2.trans ?_, h3.trans ?_, h4, h5.trans hapex, h6.trans hzones⟩
      · simp
      · exact submit_deletions w.st _ project zone a pre hstore

/-- The submissions in a log made of submissions only. -/
theorem creates_map_create {α : Type} (project zone : String) (f : α → Change) (l : List α) :
    creates (l.map (fun r => Call.ChangesCreate project zone (f r))) =
      l.map (fun r => (project, zone, f r)) := by
  induction l with
  | nil => rfl
  | cons a l ih =>
    simp only [List.map_cons]
    rw [← ih]
    rfl

/-- A log made of submissions only has no status fetch. -/
theorem fetches_map_create {α : Type} (project zone : String) (f : α → Change) (l : List α) :
    fetches (l.map (fun r => Call.ChangesCreate project zone (f r))) = [] := by
  induction l with
  | nil => rfl
  | cons a l ih =>
    simp only [List.map_cons]
    rw [← ih]
    rfl

/-- A log made of submissions only has no sleep. -/
theorem sleeps_map_create {α : Type} (project zone : String) (f : α → Change) (l : List α) :
    sleeps (l.map (fun r => Call.ChangesCreate project zone (f r))) = [] := by
  induction l with
  | nil => rfl
  | cons a l ih =>
    simp only [List.map_cons]
    rw [← ih]
    rfl

/-- When zone resolution and the unfiltered listing succeed, `CleanUp` is
its deletion loop over the listed TXT record sets at the challenge name. -/
theorem CleanUp_run {σ : Type} (acme : Acme σ) (c : DNSProvider (Service σ))
    (domain token keyAuth : String) (w : World σ) (zone : String)
    (L : List ResourceRecordSet)
    (hzone : (getHostedZone acme c domain w).1 = .ok zone)
    (hlist : (c.client.ResourceRecordSetsList c.project zone none none
        (getHostedZone acme c domain w).2.st).1 = .ok L) :
    CleanUp acme c domain token keyAuth w =
      deleteEach c zone
        (L.filter (fun r => r.Type_ = "TXT" ∧ r.Name = (DNS01Record acme domain keyAuth).1))
        { st := (c.client.ResourceRecordSetsList c.project zone none none
            (getHostedZone acme c domain w).2.st).2
          log := (getHostedZone acme c domain w).2.log ++
            [Call.ResourceRecordSetsList c.project zone none none] } := by
  rcases hgz : getHostedZone acme c domain w with ⟨r, w1⟩
  rw [hgz] at hzone hlist
  simp only at hzone hlist
  subst hzone
  unfold CleanUp findTxtRecords
  simp only [hgz, perform, hlist]

/-- C5. For any service and any `acme` library, let zone resolution give
`zone`, let the list call made without a name or type filter give `L`, and
let every submission made be accepted: the one for the `k`-th TXT record set
of `L` at the challenge name, in the state that the deletions of the ones
before it have left.  Then `CleanUp` returns success.  After zone resolution
its calls are the unfiltered list call followed by one submission per TXT
record set of `L` at the challenge name, in the order of `L`, each deleting
that record set alone and adding nothing; so it fetches no status and does
not sleep.  When `L` has no TXT record set at the challenge name, it
submits nothing. -/
theorem CleanUp_deletes_each_match {σ : Type} (acme : Acme σ) (c : DNSProvider (Service σ))
    (domain token keyAuth : String) (w : World σ) (zone : String)
    (L : List ResourceRecordSet)
    (hzone : (getHostedZone acme c domain w).1 = .ok zone)
    (hlist : (c.client.ResourceRecordSetsList c.project zone none none
        (getHostedZone acme c domain w).2.st).1 = .ok L)
    (hsub : ∀ k r,
      (L.filter (fun x => x.Type_ = "TXT" ∧ x.Name = (DNS01Record acme domain keyAuth).1))[k]? =
        some r →
      ∃ chg, (c.client.ChangesCreate c.project zone
        { Additions := [], Deletions := [r], Id := "", Status := "" }
        (deleteEach c zone
          ((L.filter (fun x => x.Type_ = "TXT" ∧
            x.Name = (DNS01Record acme domain keyAuth).1)).take k)
          { st := (c.client.ResourceRecordSetsList c.project zone none none
              (getHostedZone acme c domain w).2.st).2
            log := (getHostedZone acme c domain w).2.log ++
              [Call.ResourceRecordSetsList c.project zone none none] }).2.st).1 = .ok chg) :
    (CleanUp acme c domain token keyAuth w).1 = .ok () ∧
      (CleanUp acme c domain token keyAuth w).2.log =
        (getHostedZone acme c domain w).2.log ++
          Call.ResourceRecordSetsList c.project zone none none ::
            (L.filter (fun x => x.Type_ = "TXT" ∧
                x.Name = (DNS01Record acme domain keyAuth).1)).map
              (fun r => Call.ChangesCreate c.project zone
                { Additions := [], Deletions := [r], Id := "", Status := "" }) ∧
      creates (CleanUp acme c domain token keyAuth w).2.log =
        creates w.log ++
          (L.filter (fun x => x.Type_ = "TXT" ∧
              x.Name = (DNS01Record acme domain keyAuth).1)).map
            (fun r => (c.project, zone,
              ({ Additions := [], Deletions := [r], Id := "", Status := "" } : Change))) ∧
      fetches (CleanUp acme c domain token keyAuth w).2.log = fetches w.log ∧
      sleeps (CleanUp acme c domain token keyAuth w).2.log = sleeps w.log ∧
      ((∀ r ∈ L, ¬ (r.Type_ = "TXT" ∧ r.Name = (DNS01Record acme domain keyAuth).1)) →
        creates (CleanUp acme c domain token keyAuth w).2.log = creates w.log) := by
  have hzlog := getHostedZone_log acme c domain w
  have hrun := CleanUp_run acme c domain token keyAuth w zone L hzone hlist
  obtain ⟨h1, h2⟩ := deleteEach_accepted c zone
    (L.filter (fun x => x.Type_ = "TXT" ∧ x.Name = (DNS01Record acme domain keyAuth).1))
    { st := (c.client.ResourceRecordSetsList c.project zone none none
        (getHostedZone acme c domain w).2.st).2
      log := (getHostedZone acme c domain w).2.log ++
        [Call.ResourceRecordSetsList c.project zone none none] }
    hsub
  rw [← hrun] at h1 h2
  have hcreates : creates (CleanUp acme c domain token keyAuth w).2.log =
      creates w.log ++
        (L.filter (fun x => x.Type_ = "TXT" ∧
            x.Name = (DNS01Record acme domain keyAuth).1)).map
          (fun r => (c.project, zone,
            ({ Additions := [], Deletions := [r], Id := "", Status := "" } : Change))) := by
    rw [h2]
    simp only [creates_append, hzlog.1, creates_map_create]
    simp [creates, deletionOf]
  refine ⟨h1, ?_, hcreates, ?_, ?_, fun hnone => ?_⟩
  · rw [h2]
    simp [deletionOf]
  · rw [h2]
    simp only [fetches_append, hzlog.2.1, fetches_map_create]
    simp [fetches]
  · rw [h2]
    simp only [sleeps_append, hzlog.2.2, sleeps_map_create]
    simp [sleeps]
  · rw [hcreates]
    have hempty : L.filter (fun x => x.Type_ = "TXT" ∧
        x.Name = (DNS01Record acme domain keyAuth).1) = [] := by
      rw [List.filter_eq_nil_iff]
      intro r hr
      simpa using hnone r hr
    rw [hempty]
    simp

/-- C5, at the example zone against the modelled service, which accepts
every submission when its script is empty: three matching record sets, three
changes of one deletion each, in the order of the listing, and success. -/
theorem CleanUp_deletes_each_match_witness :
    (CleanUp (cloudAcme id 120) (cloudProvider "p") "example.com" "token" "keyAuth"
        (exampleCloud exampleContent [])).1 = .ok () ∧
      creates (CleanUp (cloudAcme id 120) (cloudProvider "p") "example.com" "token" "keyAuth"
        (exampleCloud exampleContent [])).2.log =
        [("p", "example-zone",
            { Additions := []
              Deletions := [{ Name := "_acme-challenge.example.com.", Rrdatas := ["a"],
                              Ttl := 120, Type_ := "TXT" }]
              Id := "", Status := "" }),
         ("p", "example-zone",
            { Additions := []
              Deletions := [{ Name := "_acme-challenge.example.com.", Rrdatas := ["b"],
                              Ttl := 120, Type_ := "TXT" }]
              Id := "", Status := "" }),
         ("p", "example-zone",
            { Additions := []
              Deletions := [{ Name := "_acme-challenge.example.com.", Rrdatas := ["c"],
                              Ttl := 120, Type_ := "TXT" }]
              Id := "", Status := "" })] :=
  have h := CleanUp_deletes_each_match (cloudAcme id 120) (cloudProvider "p") "example.com"
    "token" "keyAuth" (exampleCloud exampleContent []) "example-zone" exampleContent rfl rfl
    (fun k _ hk =>
      match k, hk with
      | 0, _ => ⟨_, rfl⟩
      | 1, _ => ⟨_, rfl⟩
      | 2, _ => ⟨_, rfl⟩
      | _ + 3, hk => nomatch hk)
  ⟨h.1, h.2.2.1⟩

/-- C6. In the modelled world, let zone resolution give `zone`, let the
listed TXT record sets at the challenge name be `pre ++ r :: post`, and let
the script accept the submissions for `pre` and reject the next one, which
is the one for `r`, with `e`.  Then `CleanUp` returns `e`; the changes it
has submitted are the deletions of the record sets of `pre` and of `r`, one
each and in order, and nothing for `post` or to restore `pre`; it fetches no
status and does not sleep; and it leaves the zone as the accepted deletions
made it, without the record sets of `pre` and nothing else removed. -/
theorem CleanUp_stops_at_first_failure (digest : String → String) (ttl : Int)
    (project domain token keyAuth : String) (w : World Cloud) (zone : String)
    (L pre post : List ResourceRecordSet) (r : ResourceRecordSet)
    (oks : List String) (e : Error) (rest : List (Except Error String))
    (hzone : (getHostedZone (cloudAcme digest ttl) (cloudProvider project) domain w).1 = .ok zone)
    (hlist : (cloudService.ResourceRecordSetsList project zone none none w.st).1 = .ok L)
    (hfound : L.filter (fun x => x.Type_ = "TXT" ∧
        x.Name = (DNS01Record (cloudAcme digest ttl) domain keyAuth).1) = pre ++ r :: post)
    (hoks : oks.length = pre.length)
    (hscript : w.st.script = oks.map .ok ++ .error e :: rest) :
    (CleanUp (cloudAcme digest ttl) (cloudProvider project) domain token keyAuth w).1 = .error e ∧
      creates (CleanUp (cloudAcme digest ttl) (cloudProvider project) domain token keyAuth w).2.log =
        creates w.log ++
          (pre ++ [r]).map (fun x => (project, zone,
            ({ Additions := [], Deletions := [x], Id := "", Status := "" } : Change))) ∧
      fetches (CleanUp (cloudAcme digest ttl) (cloudProvider project) domain token keyAuth w).2.log =
        fetches w.log ∧
      sleeps (CleanUp (cloudAcme digest ttl) (cloudProvider project) domain token keyAuth w).2.log =
        sleeps w.log ∧
      (CleanUp (cloudAcme digest ttl) (cloudProvider project) domain token keyAuth w).2.st.store
          project zone = (w.st.store project zone).filter (fun x => x ∉ pre) ∧
      (CleanUp (cloudAcme digest ttl) (cloudProvider project) domain token keyAuth w).2.st.script =
        rest := by
  have hst := getHostedZone_cloud_st digest ttl project domain w
  have hzlog := getHostedZone_log (cloudAcme digest ttl) (cloudProvider project) domain w
  have hrun := CleanUp_run (cloudAcme digest ttl) (cloudProvider project) domain token keyAuth w
    zone L hzone (by rw [hst]; exact hlist)
  rw [hfound] at hrun
  obtain ⟨h1, h2, h3, h4, -⟩ := deleteEach_cloud_fail project zone r post e rest pre
    { st := ((cloudProvider project).client.ResourceRecordSetsList (cloudProvider project).project
        zone none none
        (getHostedZone (cloudAcme digest ttl) (cloudProvider project) domain w).2.st).2
      log := (getHostedZone (cloudAcme digest ttl) (cloudProvider project) domain w).2.log ++
        [Call.ResourceRecordSetsList (cloudProvider project).project zone none none] }
    oks hoks (by rw [hst]; exact hscript)
  rw [← hrun] at h1 h2 h3 h4
  refine ⟨h1, ?_, ?_, ?_, ?_, h4⟩
  · rw [h2]
    simp only [creates_append, hzlog.1, creates_map_create]
    simp [creates, deletionOf]
  · rw [h2]
    simp only [fetches_append, hzlog.2.1, fetches_map_create]
    simp [fetches]
  · rw [h2]
    simp only [sleeps_append, hzlog.2.2, sleeps_map_create]
    simp [sleeps]
  · rw [h3]
    simp only [hst]
    simp [Cloud.submit, applyChange, deletionOf, cloudProvider, cloudService]

/-- C6, at the example zone: the first deletion is accepted and the second
is rejected.  Two changes have been submitted, none for the third matching
record set, and the zone still lacks the first record set. -/
theorem CleanUp_stops_at_first_failure_witness :
    (CleanUp (cloudAcme id 120) (cloudProvider "p") "example.com" "token" "keyAuth"
        (exampleCloud exampleContent [.ok "pending", .error "quota exceeded"])).1 =
        .error "quota exceeded" ∧
      (creates (CleanUp (cloudAcme id 120) (cloudProvider "p") "example.com" "token" "keyAuth"
        (exampleCloud exampleContent [.ok "pending", .error "quota exceeded"])).2.log).length = 2 ∧
      (CleanUp (cloudAcme id 120) (cloudProvider "p") "example.com" "token" "keyAuth"
        (exampleCloud exampleContent [.ok "pending", .error "quota exceeded"])).2.st.store
          "p" "example-zone" =
        [{ Name := "example.com.", Rrdatas := ["192.0.2.1"], Ttl := 300, Type_ := "A" },
         { Name := "_acme-challenge.example.com.", Rrdatas := ["b"], Ttl := 120, Type_ := "TXT" },
         { Name := "_acme-challenge.example.com.", Rrdatas := ["c"], Ttl := 120, Type_ := "TXT" }] :=
  have h := CleanUp_stops_at_first_failure id 120 "p" "example.com" "token" "keyAuth"
    (exampleCloud exampleContent [.ok "pending", .error "quota exceeded"]) "example-zone"
    exampleContent
    [{ Name := "_acme-challenge.example.com.", Rrdatas := ["a"], Ttl := 120, Type_ := "TXT" }]
    [{ Name := "_acme-challenge.example.com.", Rrdatas := ["c"], Ttl := 120, Type_ := "TXT" }]
    { Name := "_acme-challenge.example.com.", Rrdatas := ["b"], Ttl := 120, Type_ := "TXT" }
    ["pending"] "quota exceeded" [] rfl rfl rfl rfl rfl
  ⟨h.1, congrArg List.length h.2.1, h.2.2.2.2.1⟩

/-! ## The stored record sets after Present and CleanUp -/

/-- The list call filtered by a name and a type returns the stored record
sets of that type at that name. -/
theorem listFilter_some (n t : String) (l : List ResourceRecordSet) :
    listFilter (some n) (some t) l = l.filter (fun r => r.Type_ = t ∧ r.Name = n) := by
  unfold listFilter
  apply List.filter_congr
  intro r _
  simp only [Option.some.injEq, false_or, reduceCtorEq, decide_eq_decide]
  constructor
  · rintro ⟨h1, h2⟩
    exact ⟨h2.symm, h1.symm⟩
  · rintro ⟨h1, h2⟩
    exact ⟨h2.symm, h1.symm⟩

/-- The unfiltered list call returns the stored record sets. -/
theorem listFilter_none (l : List ResourceRecordSet) : listFilter none none l = l := by
  unfold listFilter
  simp

/-- Removing from a list the elements of its sublist selected by `P` leaves
the elements that `P` rejects. -/
theorem filter_not_mem_filter (P : ResourceRecordSet → Bool) (l : List ResourceRecordSet) :
    l.filter (fun x => x ∉ l.filter P) = l.filter (fun x => !P x) := by
  apply List.filter_congr
  intro x hx
  simp [List.mem_filter, hx]

/-- The record sets that `P` selects among those that `P` rejects. -/
theorem filter_filter_not (P : ResourceRecordSet → Bool) (l : List ResourceRecordSet) :
    (l.filter (fun x => !P x)).filter P = [] := by
  rw [List.filter_eq_nil_iff]
  intro x hx
  have := (List.mem_filter.mp hx).2
  simpa using this

/-- In the modelled world a successful `Present` has resolved a zone, and
leaves in it the record sets it held that are not TXT record sets at the
challenge name, followed by the new challenge record set; the other zones
and the tables are as before. -/
theorem Present_cloud_ok (digest : String → String) (ttl : Int)
    (project domain token keyAuth : String) (fuel : Nat) (w : World Cloud)
    (h : (Present (cloudAcme digest ttl) (cloudProvider project) domain token keyAuth fuel w).1 =
      some (.ok ())) :
    ∃ zone, (getHostedZone (cloudAcme digest ttl) (cloudProvider project) domain w).1 = .ok zone ∧
      (Present (cloudAcme digest ttl) (cloudProvider project) domain token keyAuth fuel w).2.st.store
          project zone =
        (w.st.store project zone).filter
            (fun r => !decide (r.Type_ = "TXT" ∧ r.Name = "_acme-challenge." ++ domain ++ ".")) ++
          [{ Name := "_acme-challenge." ++ domain ++ ".", Rrdatas := [digest keyAuth],
             Ttl := ttl, Type_ := "TXT" }] ∧
      (∀ p z, ¬ (p = project ∧ z = zone) →
        (Present (cloudAcme digest ttl) (cloudProvider project) domain token keyAuth
          fuel w).2.st.store p z = w.st.store p z) ∧
      (Present (cloudAcme digest ttl) (cloudProvider project) domain token keyAuth fuel w).2.st.apex =
        w.st.apex ∧
      (Present (cloudAcme digest ttl) (cloudProvider project) domain token keyAuth fuel w).2.st.zones =
        w.st.zones := by
  have hst := getHostedZone_cloud_st digest ttl project domain w
  cases hz : (getHostedZone (cloudAcme digest ttl) (cloudProvider project) domain w).1 with
  | error e =>
    rw [Present_zone_error _ _ domain token keyAuth fuel w e hz] at h
    simp at h
  | ok zone =>
    refine ⟨zone, rfl, ?_⟩
    cases hc : (cloudService.ChangesCreate project zone
        (challengeChange (cloudAcme digest ttl) domain keyAuth
          (listFilter (some (DNS01Record (cloudAcme digest ttl) domain keyAuth).1) (some "TXT")
            (w.st.store project zone))) w.st).1 with
    | error e =>
      have hfail := Present_create_error (cloudAcme digest ttl) (cloudProvider project) domain
        token keyAuth fuel w zone _ e hz (by rw [hst]; rfl) (by rw [hst]; exact hc)
      rw [hfail] at h
      simp at h
    | ok chg =>
      obtain ⟨W, hW, -, -, hrun⟩ :=
        Present_cloud_run digest ttl project domain token keyAuth w zone chg hz hc
      obtain ⟨hstore, hapex, hzones, -⟩ := ChangesCreate_cloud_ok project zone _ chg w.st hc
      obtain ⟨f1, f2, f3⟩ := pollLoop_cloud_frame project zone fuel chg W
      rw [hrun fuel]
      simp only
      rw [f1, f2, f3, hW, hstore]
      refine ⟨?_, fun p z hpz => ?_, hapex, hzones⟩
      · simp only [Cloud.submit, and_self, if_true, applyChange, challengeChange, listFilter_some,
          filter_not_mem_filter]
        rfl
      · simp only [Cloud.submit, hpz, if_false]

/-- C1. In the modelled world, where a change removes its deletions and then
adds its additions and the filtered list call returns the stored record
sets of that name and type, let `Present` succeed for a domain with the key
authorization `k1` and then succeed again for the same domain with `k2`,
from any initial content and for any two key authorizations.  Then both
calls resolved the same zone, and afterwards the TXT record sets that the
zone holds at the challenge name are exactly the one record set whose
values are the value derived from `k2`; this is also what the list call
filtered by that name and type returns. -/
theorem Present_twice_keeps_second (digest : String → String) (ttl : Int)
    (project domain token1 token2 k1 k2 : String) (fuel1 fuel2 : Nat) (w : World Cloud)
    (h1 : (Present (cloudAcme digest ttl) (cloudProvider project) domain token1 k1 fuel1 w).1 =
      some (.ok ()))
    (h2 : (Present (cloudAcme digest ttl) (cloudProvider project) domain token2 k2 fuel2
        (Present (cloudAcme digest ttl) (cloudProvider project) domain token1 k1 fuel1 w).2).1 =
      some (.ok ())) :
    ∃ zone,
      (getHostedZone (cloudAcme digest ttl) (cloudProvider project) domain w).1 = .ok zone ∧
      (getHostedZone (cloudAcme digest ttl) (cloudProvider project) domain
        (Present (cloudAcme digest ttl) (cloudProvider project) domain token1 k1 fuel1 w).2).1 =
        .ok zone ∧
      ((Present (cloudAcme digest ttl) (cloudProvider project) domain token2 k2 fuel2
          (Present (cloudAcme digest ttl) (cloudProvider project) domain token1 k1 fuel1
            w).2).2.st.store project zone).filter
          (fun r => r.Type_ = "TXT" ∧ r.Name = (DNS01Record (cloudAcme digest ttl) domain k2).1) =
        [{ Name := (DNS01Record (cloudAcme digest ttl) domain k2).1
           Rrdatas := [(DNS01Record (cloudAcme digest ttl) domain k2).2.1]
           Ttl := (DNS01Record (cloudAcme digest ttl) domain k2).2.2
           Type_ := "TXT" }] ∧
      (cloudService.ResourceRecordSetsList project zone
          (some (DNS01Record (cloudAcme digest ttl) domain k2).1) (some "TXT")
          (Present (cloudAcme digest ttl) (cloudProvider project) domain token2 k2 fuel2
            (Present (cloudAcme digest ttl) (cloudProvider project) domain token1 k1 fuel1
              w).2).2.st).1 =
        .ok [{ Name := (DNS01Record (cloudAcme digest ttl) domain k2).1
               Rrdatas := [(DNS01Record (cloudAcme digest ttl) domain k2).2.1]
               Ttl := (DNS01Record (cloudAcme digest ttl) domain k2).2.2
               Type_ := "TXT" }] := by
  obtain ⟨z1, hz1, -, -, ha1, hzn1⟩ :=
    Present_cloud_ok digest ttl project domain token1 k1 fuel1 w h1
  obtain ⟨z2, hz2, hs2, -⟩ := Present_cloud_ok digest ttl project domain token2 k2 fuel2 _ h2
  have hsame := getHostedZone_cloud_congr digest ttl project domain w
    (Present (cloudAcme digest ttl) (cloudProvider project) domain token1 k1 fuel1 w).2 ha1 hzn1
  have hz : z2 = z1 := by
    rw [hsame, hz1] at hz2
    exact (Except.ok.inj hz2).symm
  subst hz
  have hfilter : ((Present (cloudAcme digest ttl) (cloudProvider project) domain token2 k2 fuel2
      (Present (cloudAcme digest ttl) (cloudProvider project) domain token1 k1 fuel1
        w).2).2.st.store project z2).filter
      (fun r => r.Type_ = "TXT" ∧ r.Name = "_acme-challenge." ++ domain ++ ".") =
      [{ Name := "_acme-challenge." ++ domain ++ ".", Rrdatas := [digest k2], Ttl := ttl,
         Type_ := "TXT" }] := by
    rw [hs2, List.filter_append, filter_filter_not]
    simp
  refine ⟨z2, hz1, hz2, hfilter, ?_⟩
  show Except.ok (listFilter _ _ _) = _
  rw [listFilter_some]
  exact congrArg Except.ok hfilter

/-- C1, at the example of the spec, with a TXT record set already at the
challenge name and an A record set in the zone: both calls succeed and the
one TXT record set left at the name carries the second value. -/
theorem Present_twice_keeps_second_witness :
    (Present (cloudAcme id 120) (cloudProvider "p") "example.com" "t1" "k1" 1
        (exampleCloud
          [{ Name := "_acme-challenge.example.com.", Rrdatas := ["old"], Ttl := 60, Type_ := "TXT" },
           { Name := "example.com.", Rrdatas := ["192.0.2.1"], Ttl := 300, Type_ := "A" }]
          [.ok "pending", .ok "done", .ok "done"])).1 = some (.ok ()) ∧
      ∃ zone,
        ((Present (cloudAcme id 120) (cloudProvider "p") "example.com" "t2" "k2" 0
          (Present (cloudAcme id 120) (cloudProvider "p") "example.com" "t1" "k1" 1
            (exampleCloud
              [{ Name := "_acme-challenge.example.com.", Rrdatas := ["old"], Ttl := 60,
                 Type_ := "TXT" },
               { Name := "example.com.", Rrdatas := ["192.0.2.1"], Ttl := 300, Type_ := "A" }]
              [.ok "pending", .ok "done", .ok "done"])).2).2.st.store "p" zone).filter
            (fun r => r.Type_ = "TXT" ∧ r.Name = "_acme-challenge.example.com.") =
          [{ Name := "_acme-challenge.example.com.", Rrdatas := ["k2"], Ttl := 120,
             Type_ := "TXT" }] :=
  ⟨rfl,
    (Present_twice_keeps_second id 120 "p" "example.com" "t1" "t2" "k1" "k2" 1 0
      (exampleCloud
        [{ Name := "_acme-challenge.example.com.", Rrdatas := ["old"], Ttl := 60, Type_ := "TXT" },
         { Name := "example.com.", Rrdatas := ["192.0.2.1"], Ttl := 300, Type_ := "A" }]
        [.ok "pending", .ok "done", .ok "done"]) rfl rfl).imp (fun _ h => h.2.2.1)⟩

/-- In the modelled world a deletion loop that succeeds leaves the zone
without the record sets it was given, and the tables as before. -/
theorem deleteEach_cloud_success (project zone : String) (records : List ResourceRecordSet) :
    ∀ w : World Cloud,
      (deleteEach (cloudProvider project) zone records w).1 = .ok () →
      (deleteEach (cloudProvider project) zone records w).2.st.store =
          w.st.submit project zone (deletionOf records) ∧
        (deleteEach (cloudProvider project) zone records w).2.st.apex = w.st.apex ∧
        (deleteEach (cloudProvider project) zone records w).2.st.zones = w.st.zones := by
  induction records with
  | nil =>
    intro w _
    unfold deleteEach
    exact ⟨(submit_no_deletions w.st project zone).symm, rfl, rfl⟩
  | cons r rest ih =>
    intro w h
    cases hc : (cloudService.ChangesCreate project zone (deletionOf [r]) w.st).1 with
    | error e =>
      rw [deleteEach_cons_error (cloudProvider project) zone r rest w e hc] at h
      simp at h
    | ok chg =>
      obtain ⟨hstore, hapex, hzones, -⟩ :=
        ChangesCreate_cloud_ok project zone (deletionOf [r]) chg w.st hc
      rw [deleteEach_cons_ok (cloudProvider project) zone r rest w chg hc] at h ⊢
      obtain ⟨h3, h5, h6⟩ := ih _ h
      exact ⟨h3.trans (submit_deletions w.st _ project zone r rest hstore), h5.trans hapex,
        h6.trans hzones⟩

/-- When zone resolution fails, `CleanUp` returns its error. -/
theorem CleanUp_zone_error {σ : Type} (acme : Acme σ) (c : DNSProvider (Service σ))
    (domain token keyAuth : String) (w : World σ) (e : Error)
    (hzone : (getHostedZone acme c domain w).1 = .error e) :
    (CleanUp acme c domain token keyAuth w).1 = .error e := by
  rcases hgz : getHostedZone acme c domain w with ⟨r, w1⟩
  rw [hgz] at hzone
  simp only at hzone
  subst hzone
  unfold CleanUp
  simp only [hgz]

/-- In the modelled world a successful `CleanUp` has resolved a zone, and
leaves in it the record sets it held that are not TXT record sets at the
challenge name; the other zones are as before. -/
theorem CleanUp_cloud_ok (digest : String → String) (ttl : Int)
    (project domain token keyAuth : String) (w : World Cloud)
    (h : (CleanUp (cloudAcme digest ttl) (cloudProvider project) domain token keyAuth w).1 =
      .ok ()) :
    ∃ zone, (getHostedZone (cloudAcme digest ttl) (cloudProvider project) domain w).1 = .ok zone ∧
      (CleanUp (cloudAcme digest ttl) (cloudProvider project) domain token keyAuth w).2.st.store
          project zone =
        (w.st.store project zone).filter
          (fun r => !decide (r.Type_ = "TXT" ∧ r.Name = "_acme-challenge." ++ domain ++ ".")) ∧
      (∀ p z, ¬ (p = project ∧ z = zone) →
        (CleanUp (cloudAcme digest ttl) (cloudProvider project) domain token
          keyAuth w).2.st.store p z = w.st.store p z) := by
  have hst := getHostedZone_cloud_st digest ttl project domain w
  cases hz : (getHostedZone (cloudAcme digest ttl) (cloudProvider project) domain w).1 with
  | error e =>
    rw [CleanUp_zone_error _ _ domain token keyAuth w e hz] at h
    simp at h
  | ok zone =>
    refine ⟨zone, rfl, ?_⟩
    have hrun := CleanUp_run (cloudAcme digest ttl) (cloudProvider project) domain token keyAuth w
      zone (listFilter none none (w.st.store project zone)) hz (by rw [hst]; rfl)
    rw [hrun] at h ⊢
    obtain ⟨h3, -⟩ := deleteEach_cloud_success project zone _ _ h
    rw [h3]
    simp only [hst, listFilter_none]
    have hstore : ((cloudProvider project).client.ResourceRecordSetsList
        (cloudProvider project).project zone none none w.st).2.store = w.st.store := rfl
    refine ⟨?_, fun p z hpz => ?_⟩
    · simp only [Cloud.submit, hstore, and_self, if_true, applyChange, deletionOf,
        List.append_nil]
      exact filter_not_mem_filter _ _
    · simp only [Cloud.submit, hstore, hpz, if_false]

/-- C2. In the modelled world, where a change removes its deletions and then
adds its additions and the list calls return the stored record sets, let
`Present` succeed and let `CleanUp`, called next with the same arguments,
succeed, from any initial content.  Then both resolved the same zone;
afterwards the zone holds no TXT record set at the challenge name; its
record sets of another name or another type are those it held at the start,
in the same order; and every other zone is as it was. -/
theorem Present_then_CleanUp (digest : String → String) (ttl : Int)
    (project domain token keyAuth : String) (fuel : Nat) (w : World Cloud)
    (h1 : (Present (cloudAcme digest ttl) (cloudProvider project) domain token keyAuth fuel w).1 =
      some (.ok ()))
    (h2 : (CleanUp (cloudAcme digest ttl) (cloudProvider project) domain token keyAuth
        (Present (cloudAcme digest ttl) (cloudProvider project) domain token keyAuth fuel w).2).1 =
      .ok ()) :
    ∃ zone,
      (getHostedZone (cloudAcme digest ttl) (cloudProvider project) domain w).1 = .ok zone ∧
      (getHostedZone (cloudAcme digest ttl) (cloudProvider project) domain
        (Present (cloudAcme digest ttl) (cloudProvider project) domain token keyAuth fuel w).2).1 =
        .ok zone ∧
      ((CleanUp (cloudAcme digest ttl) (cloudProvider project) domain token keyAuth
          (Present (cloudAcme digest ttl) (cloudProvider project) domain token keyAuth fuel
            w).2).2.st.store project zone).filter
          (fun r => r.Type_ = "TXT" ∧
            r.Name = (DNS01Record (cloudAcme digest ttl) domain keyAuth).1) = [] ∧
      ((CleanUp (cloudAcme digest ttl) (cloudProvider project) domain token keyAuth
          (Present (cloudAcme digest ttl) (cloudProvider project) domain token keyAuth fuel
            w).2).2.st.store project zone).filter
          (fun r => ¬ (r.Type_ = "TXT" ∧
            r.Name = (DNS01Record (cloudAcme digest ttl) domain keyAuth).1)) =
        (w.st.store project zone).filter
          (fun r => ¬ (r.Type_ = "TXT" ∧
            r.Name = (DNS01Record (cloudAcme digest ttl) domain keyAuth).1)) ∧
      (∀ p z, ¬ (p = project ∧ z = zone) →
        (CleanUp (cloudAcme digest ttl) (cloudProvider project) domain token keyAuth
          (Present (cloudAcme digest ttl) (cloudProvider project) domain token keyAuth fuel
            w).2).2.st.store p z = w.st.store p z) := by
  obtain ⟨z1, hz1, hs1, ho1, ha1, hzn1⟩ :=
    Present_cloud_ok digest ttl project domain token keyAuth fuel w h1
  obtain ⟨z2, hz2, hs2, ho2⟩ := CleanUp_cloud_ok digest ttl project domain token keyAuth _ h2
  have hsame := getHostedZone_cloud_congr digest ttl project domain w
    (Present (cloudAcme digest ttl) (cloudProvider project) domain token keyAuth fuel w).2 ha1 hzn1
  have hz : z2 = z1 := by
    rw [hsame, hz1] at hz2
    exact (Except.ok.inj hz2).symm
  subst hz
  have hfinal : (CleanUp (cloudAcme digest ttl) (cloudProvider project) domain token keyAuth
      (Present (cloudAcme digest ttl) (cloudProvider project) domain token keyAuth fuel
        w).2).2.st.store project z2 =
      (w.st.store project z2).filter
        (fun r => !decide (r.Type_ = "TXT" ∧ r.Name = "_acme-challenge." ++ domain ++ ".")) := by
    rw [hs2, hs1, List.filter_append, List.filter_filter]
    simp
  refine ⟨z2, hz1, hz2, ?_, ?_, fun p z hpz => (ho2 p z hpz).trans (ho1 p z hpz)⟩
  · rw [hfinal]
    exact filter_filter_not _ _
  · rw [hfinal, List.filter_filter]
    simp [DNS01Record]

/-- C2, at the example of the spec, with a TXT record set already at the
challenge name and an A record set in the zone: both calls succeed, and the
zone is left with the A record set alone. -/
theorem Present_then_CleanUp_witness :
    (CleanUp (cloudAcme id 120) (cloudProvider "p") "example.com" "token" "keyAuth"
        (Present (cloudAcme id 120) (cloudProvider "p") "example.com" "token" "keyAuth" 1
          (exampleCloud
            [{ Name := "_acme-challenge.example.com.", Rrdatas := ["old"], Ttl := 60,
               Type_ := "TXT" },
             { Name := "example.com.", Rrdatas := ["192.0.2.1"], Ttl := 300, Type_ := "A" }]
            [.ok "pending", .ok "done"])).2).2.st.store "p" "example-zone" =
        [{ Name := "example.com.", Rrdatas := ["192.0.2.1"], Ttl := 300, Type_ := "A" }] ∧
      ∃ zone,
        (getHostedZone (cloudAcme id 120) (cloudProvider "p") "example.com"
          (exampleCloud
            [{ Name := "_acme-challenge.example.com.", Rrdatas := ["old"], Ttl := 60,
               Type_ := "TXT" },
             { Name := "example.com.", Rrdatas := ["192.0.2.1"], Ttl := 300, Type_ := "A" }]
            [.ok "pending", .ok "done"])).1 = .ok zone ∧
        ((CleanUp (cloudAcme id 120) (cloudProvider "p") "example.com" "token" "keyAuth"
          (Present (cloudAcme id 120) (cloudProvider "p") "example.com" "token" "keyAuth" 1
            (exampleCloud
              [{ Name := "_acme-challenge.example.com.", Rrdatas := ["old"], Ttl := 60,
                 Type_ := "TXT" },
               { Name := "example.com.", Rrdatas := ["192.0.2.1"], Ttl := 300, Type_ := "A" }]
              [.ok "pending", .ok "done"])).2).2.st.store "p" zone).filter
            (fun r => r.Type_ = "TXT" ∧ r.Name = "_acme-challenge.example.com.") = [] :=
  ⟨rfl,
    (Present_then_CleanUp id 120 "p" "example.com" "token" "keyAuth" 1
      (exampleCloud
        [{ Name := "_acme-challenge.example.com.", Rrdatas := ["old"], Ttl := 60, Type_ := "TXT" },
         { Name := "example.com.", Rrdatas := ["192.0.2.1"], Ttl := 300, Type_ := "A" }]
        [.ok "pending", .ok "done"]) rfl rfl).imp (fun _ h => ⟨h.1, h.2.2.1⟩)⟩

end GoogleCloud
